import Mathlib

/-!
# Index maintenance for remote-backed (K2PG) tables

A shallow embedding of

* `src/common/backend/catalog/indexing.cpp`
  (`CatalogIndexInsert`, `CatalogIndexDelete`, `CatalogTupleDelete`,
  `CatalogUpdateIndexes`),
* `src/gausskernel/storage/access/k2/k2_index_ops.cpp`
  (`k2inbuildCallback`, `k2inbuild`, `k2ininsert`, `k2indelete`,
  `k2incanreturn`, `k2inbeginscan`, `k2inrescan`, `k2inendscan`,
  `k2ingettuple`), and
* `src/gausskernel/storage/access/k2/k2cat_cmds.cpp`
  (`ColumnSortingOptions`, `CreateTableAddColumn`, `CreateTableAddColumns`,
  `K2PgDropIndex`).

The C functions return `void` and act through calls into the rest of the
engine.  Each function is embedded as a pure function that returns the list
of outgoing calls it makes, in program order, with the arguments it passes.
The scan functions pass a `CamWorld` along, which holds the calls made into
the remote scan module so far; `CreateTableAddColumns` returns the column
vector it fills or the error it reports.

Conventions of the embedding:

* `Assert(...)` lines are debug-build checks that expand to nothing in a
  production build.  In the maintenance loops they are left out; in the scan
  functions each one is recorded (`CamWorld.assertsHold`) and execution goes
  on, as in a production build.
* The two parallel arrays `ri_IndexRelationDescs` / `ri_IndexRelationInfo`
  of length `ri_NumIndices` are one list of pairs.
* The tuple-table slot that `FormIndexDatum` reads is the heap tuple itself.
* The statistics counters of `k2inbuild` are C doubles that only ever hold
  whole row counts (every whole number up to 2^53 is an exact double); they
  are natural numbers here.
-/

namespace K2Index

/-! ## Data model -/

abbrev Oid := Nat

/-- A pointer-sized value (`Datum`); `0` is the null pointer. -/
abbrev Datum := Nat

/-- Physical position of a row in local storage (`t_self`). -/
structure ItemPointerData where
  ip_blkid : Nat
  ip_posid : Nat
deriving DecidableEq, Repr

/-- The fields of `rd_index` (a `pg_index` row) that the code reads. -/
structure FormData_pg_index where
  indisprimary : Bool
  indisunique : Bool
deriving DecidableEq, Repr

/-- A relation descriptor (`Relation`); `rd_index` is meaningful for index relations. -/
structure RelationData where
  rd_id : Oid
  rd_index : FormData_pg_index
deriving DecidableEq, Repr

/-- The fields of `IndexInfo` that the code reads. -/
structure IndexInfo where
  ii_KeyAttrNumbers : List Nat
  ii_ReadyForInserts : Bool
deriving DecidableEq, Repr

/-- A heap tuple: `heap_only` is the result of `HeapTupleIsHeapOnly`,
`t_k2pgctid` the logical record identifier (`0` when missing), `t_values` the
attribute values (`none` for SQL NULL). -/
structure HeapTupleData where
  t_self : ItemPointerData
  t_k2pgctid : Datum
  heap_only : Bool
  t_values : List (Option Datum)
deriving DecidableEq, Repr

/-- The `ItemPointer` argument handed to the index access method: in
`indexing.cpp` it is either the logical record identifier reinterpreted as a
pointer, `(ItemPointer)(heapTuple->t_k2pgctid)`, or the address of the local
position, `&(heapTuple->t_self)`. -/
inductive TupleRef where
  | k2pgctid (d : Datum)
  | t_self (ip : ItemPointerData)
deriving DecidableEq, Repr

/-- The two values of `IndexUniqueCheck` that `CatalogIndexInsert` passes. -/
inductive IndexUniqueCheck where
  | UNIQUE_CHECK_NO
  | UNIQUE_CHECK_YES
deriving DecidableEq, Repr

/-- Result of `CatalogOpenIndexes`: the heap relation and its opened indexes. -/
structure ResultRelInfo where
  ri_RelationDesc : RelationData
  ri_indexes : List (RelationData × IndexInfo)
deriving DecidableEq, Repr

/-- Number of opened indexes (`ri_NumIndices`). -/
def ResultRelInfo.ri_NumIndices (indstate : ResultRelInfo) : Nat :=
  indstate.ri_indexes.length

/-- The functions of the engine that the code calls for a value and that are
not part of the embedded files; they are parameters of the embedding. -/
structure K2PgEnv where
  IsK2PgEnabled : Bool
  IsK2PgRelation : RelationData → Bool
  K2PgRelHasSecondaryIndices : RelationData → Bool
  FormIndexDatum : IndexInfo → HeapTupleData → List Datum × List Bool
  ExecOpenIndices : RelationData → List (RelationData × IndexInfo)

/-- An outgoing call, with its arguments.  The first seven are made by
`indexing.cpp`, `K2PgExecuteInsertIndex` / `K2PgExecuteDeleteIndex` by
`k2_index_ops.cpp`. -/
inductive Call where
  | index_insert (indexRelation : RelationData) (values : List Datum) (isnull : List Bool)
      (heap_t_ctid : TupleRef) (heapRelation : RelationData) (checkUnique : IndexUniqueCheck)
  | index_delete (indexRelation : RelationData) (values : List Datum) (isnull : List Bool)
      (heap_t_ctid : TupleRef)
  | K2PgDeleteIndexRowsByBaseK2Pgctid (index : RelationData) (k2pgctid : TupleRef)
  | K2PgSetSysCacheTuple (heapRel : RelationData) (tup : HeapTupleData)
  | K2PgDeleteSysCatalogTuple (heapRel : RelationData) (tup : HeapTupleData)
  | simple_heap_delete (heapRel : RelationData) (tid : ItemPointerData)
  | elog_WARNING_k2pgctid_missing (heapRel : RelationData)
  | K2PgExecuteInsertIndex (index : RelationData) (values : List Datum) (isnull : List Bool)
      (k2pgctid : TupleRef)
  | K2PgExecuteDeleteIndex (index : RelationData) (values : List Datum) (isnull : List Bool)
      (k2pgctid : TupleRef)
deriving DecidableEq, Repr

/-- The index relation a call is made for, if it is a call on an index. -/
def Call.target : Call → Option RelationData
  | .index_insert r _ _ _ _ _ => some r
  | .index_delete r _ _ _ => some r
  | .K2PgDeleteIndexRowsByBaseK2Pgctid r _ => some r
  | .K2PgExecuteInsertIndex r _ _ _ => some r
  | .K2PgExecuteDeleteIndex r _ _ _ => some r
  | _ => none

/-- The call inserts an index entry. -/
def Call.isInsert : Call → Bool
  | .index_insert _ _ _ _ _ _ => true
  | .K2PgExecuteInsertIndex _ _ _ _ => true
  | _ => false

/-- The call deletes index entries. -/
def Call.isDelete : Call → Bool
  | .index_delete _ _ _ _ => true
  | .K2PgDeleteIndexRowsByBaseK2Pgctid _ _ => true
  | .K2PgExecuteDeleteIndex _ _ _ _ => true
  | _ => false

/-! ## `k2_index_ops.cpp`: access-method entry points -/

/-- `k2ininsert`: the calls made and the returned bool (`heap`, `checkUnique`
and `indexInfo` are read from the argument list and not used). -/
def k2ininsert (index : RelationData) (values : List Datum) (isnull : List Bool)
    (k2pgctid : TupleRef) (_heap : RelationData) (_checkUnique : IndexUniqueCheck) :
    List Call × Bool :=
  let calls :=
    if !index.rd_index.indisprimary then
      [Call.K2PgExecuteInsertIndex index values isnull k2pgctid]
    else []
  let result := if index.rd_index.indisunique then true else false
  (calls, result)

/-- `k2indelete`: the calls made (`heap` and `indexInfo` are read from the
argument list and not used). -/
def k2indelete (index : RelationData) (values : List Datum) (isnull : List Bool)
    (k2pgctid : TupleRef) : List Call :=
  if !index.rd_index.indisprimary then
    [Call.K2PgExecuteDeleteIndex index values isnull k2pgctid]
  else []

/-! ## `indexing.cpp`: the maintenance loops -/

/-- `CatalogOpenIndexes`. -/
def CatalogOpenIndexes (env : K2PgEnv) (heapRel : RelationData) : ResultRelInfo :=
  { ri_RelationDesc := heapRel, ri_indexes := env.ExecOpenIndices heapRel }

/-- One iteration of the `for` loop of `CatalogIndexInsert`, for index `ix`. -/
def CatalogIndexInsert_iter (env : K2PgEnv) (heapRelation : RelationData)
    (heapTuple : HeapTupleData) (ix : RelationData × IndexInfo) : List Call :=
  if env.IsK2PgEnabled && ix.1.rd_index.indisprimary then []
  else if !ix.2.ii_ReadyForInserts then []
  else
    let formed := env.FormIndexDatum ix.2 heapTuple
    let t_self :=
      if env.IsK2PgRelation ix.1 then TupleRef.k2pgctid heapTuple.t_k2pgctid
      else TupleRef.t_self heapTuple.t_self
    [Call.index_insert ix.1 formed.1 formed.2 t_self heapRelation
      (if ix.1.rd_index.indisunique then IndexUniqueCheck.UNIQUE_CHECK_YES
       else IndexUniqueCheck.UNIQUE_CHECK_NO)]

/-- The `for (i = 0; i < numIndexes; i++)` loop of `CatalogIndexInsert`. -/
def CatalogIndexInsert_loop (env : K2PgEnv) (heapRelation : RelationData)
    (heapTuple : HeapTupleData) : List (RelationData × IndexInfo) → List Call
  | [] => []
  | ix :: rest =>
      CatalogIndexInsert_iter env heapRelation heapTuple ix ++
        CatalogIndexInsert_loop env heapRelation heapTuple rest

/-- `CatalogIndexInsert`. -/
def CatalogIndexInsert (env : K2PgEnv) (indstate : ResultRelInfo)
    (heapTuple : HeapTupleData) : List Call :=
  if heapTuple.heap_only then []
  else if indstate.ri_NumIndices == 0 then []
  else CatalogIndexInsert_loop env indstate.ri_RelationDesc heapTuple indstate.ri_indexes

/-- One iteration of the `for` loop of `CatalogIndexDelete`, for index `ix`. -/
def CatalogIndexDelete_iter (env : K2PgEnv) (heapTuple : HeapTupleData)
    (ix : RelationData × IndexInfo) : List Call :=
  if env.IsK2PgEnabled && ix.1.rd_index.indisprimary then []
  else if !ix.2.ii_ReadyForInserts then []
  else
    let formed := env.FormIndexDatum ix.2 heapTuple
    let t_self :=
      if env.IsK2PgRelation ix.1 then TupleRef.k2pgctid heapTuple.t_k2pgctid
      else TupleRef.t_self heapTuple.t_self
    if env.IsK2PgRelation ix.1 then
      [Call.K2PgDeleteIndexRowsByBaseK2Pgctid ix.1 t_self]
    else
      [Call.index_delete ix.1 formed.1 formed.2 t_self]

/-- The `for (i = 0; i < numIndexes; i++)` loop of `CatalogIndexDelete`. -/
def CatalogIndexDelete_loop (env : K2PgEnv) (heapTuple : HeapTupleData) :
    List (RelationData × IndexInfo) → List Call
  | [] => []
  | ix :: rest =>
      CatalogIndexDelete_iter env heapTuple ix ++ CatalogIndexDelete_loop env heapTuple rest

/-- `CatalogIndexDelete`. -/
def CatalogIndexDelete (env : K2PgEnv) (indstate : ResultRelInfo)
    (heapTuple : HeapTupleData) : List Call :=
  if indstate.ri_NumIndices == 0 then []
  else CatalogIndexDelete_loop env heapTuple indstate.ri_indexes

/-- `CatalogTupleDelete`. -/
def CatalogTupleDelete (env : K2PgEnv) (heapRel : RelationData) (tup : HeapTupleData) :
    List Call :=
  if env.IsK2PgRelation heapRel then
    Call.K2PgDeleteSysCatalogTuple heapRel tup ::
      (if env.K2PgRelHasSecondaryIndices heapRel then
        CatalogIndexDelete env (CatalogOpenIndexes env heapRel) tup
       else [])
  else
    [Call.simple_heap_delete heapRel tup.t_self]

/-- `CatalogUpdateIndexes`. -/
def CatalogUpdateIndexes (env : K2PgEnv) (heapRel : RelationData)
    (heapTuple : HeapTupleData) : List Call :=
  let indstate := CatalogOpenIndexes env heapRel
  if env.IsK2PgEnabled then
    let has_indices := env.K2PgRelHasSecondaryIndices heapRel
    (if has_indices then
      (if heapTuple.t_k2pgctid != 0 then CatalogIndexDelete env indstate heapTuple
       else [Call.elog_WARNING_k2pgctid_missing heapRel])
     else []) ++
    [Call.K2PgSetSysCacheTuple heapRel heapTuple] ++
    (if has_indices then CatalogIndexInsert env indstate heapTuple else [])
  else
    CatalogIndexInsert env indstate heapTuple

/-! ## `k2_index_ops.cpp`: index build -/

/-- Working state for `k2inbuild` and its callback. -/
structure K2PgBuildState where
  isprimary : Bool
  index_tuples : Nat
  is_backfill : Bool
deriving DecidableEq, Repr

/-- The statistics returned by `k2inbuild`. -/
structure IndexBuildResult where
  heap_tuples : Nat
  index_tuples : Nat
deriving DecidableEq, Repr

/-- `k2inbuildCallback`: the calls made and the updated build state. -/
def k2inbuildCallback (index : RelationData) (heapTuple : HeapTupleData)
    (values : List Datum) (isnull : List Bool) (_tupleIsAlive : Bool)
    (buildstate : K2PgBuildState) : List Call × K2PgBuildState :=
  let calls :=
    if !buildstate.isprimary then
      [Call.K2PgExecuteInsertIndex index values isnull (TupleRef.k2pgctid heapTuple.t_k2pgctid)]
    else []
  (calls, { buildstate with index_tuples := buildstate.index_tuples + 1 })

/-- One row as the table scan hands it to the build callback. -/
structure ScanRow where
  heapTuple : HeapTupleData
  values : List Datum
  isnull : List Bool
  tupleIsAlive : Bool
deriving DecidableEq, Repr

/-- What a full scan of the table yields: the rows it delivers to the
callback, in scan order, and the row count it reports. -/
structure HeapScan where
  rows : List ScanRow
  reltuples : Nat
deriving DecidableEq, Repr

/-- The callback invocations of `IndexBuildHeapScan`, one per delivered row. -/
def IndexBuildHeapScan_rows {σ : Type} (index : RelationData)
    (callback : RelationData → HeapTupleData → List Datum → List Bool → Bool → σ → List Call × σ) :
    List ScanRow → σ → List Call × σ
  | [], state => ([], state)
  | row :: rest, state =>
      let r := callback index row.heapTuple row.values row.isnull row.tupleIsAlive state
      let rs := IndexBuildHeapScan_rows index callback rest r.2
      (r.1 ++ rs.1, rs.2)

/-- Modelled from the spec: `IndexBuildHeapScan` (catalog/index.cpp, not under
src/) performs a full forward scan of the table's rows and invokes the
callback for each visible row, threading the caller's state; it returns the
number of rows scanned.  The outcome of the scan itself is the parameter
`scan`. -/
def IndexBuildHeapScan {σ : Type} (scan : HeapScan) (index : RelationData)
    (callback : RelationData → HeapTupleData → List Datum → List Bool → Bool → σ → List Call × σ)
    (state : σ) : Nat × List Call × σ :=
  (scan.reltuples, IndexBuildHeapScan_rows index callback scan.rows state)

/-- `k2inbuild`: the calls made and the returned statistics. -/
def k2inbuild (scan : HeapScan) (_heap : RelationData) (index : RelationData)
    (_indexInfo : IndexInfo) : List Call × IndexBuildResult :=
  let buildstate : K2PgBuildState :=
    { isprimary := index.rd_index.indisprimary, index_tuples := 0, is_backfill := false }
  let scanned := IndexBuildHeapScan scan index k2inbuildCallback buildstate
  let heap_tuples := scanned.1
  (scanned.2.1, { heap_tuples := heap_tuples, index_tuples := scanned.2.2.index_tuples })

/-! ## The remote index store -/

/-- Modelled from the spec: `index_insert` / `index_delete` (indexam, not under
src/) hand the call to the access method of the index relation.  For a
remote-backed index that is `k2ininsert` / `k2indelete`; an index in
conventional local storage issues no remote call.  The result is the list of
remote index calls that one outgoing call amounts to. -/
def amDispatch (env : K2PgEnv) : Call → List Call
  | .index_insert r v n t h c =>
      if env.IsK2PgRelation r then (k2ininsert r v n t h c).1 else []
  | .index_delete r v n t =>
      if env.IsK2PgRelation r then k2indelete r v n t else []
  | .K2PgDeleteIndexRowsByBaseK2Pgctid r t => [Call.K2PgDeleteIndexRowsByBaseK2Pgctid r t]
  | .K2PgExecuteInsertIndex r v n t => [Call.K2PgExecuteInsertIndex r v n t]
  | .K2PgExecuteDeleteIndex r v n t => [Call.K2PgExecuteDeleteIndex r v n t]
  | _ => []

/-- The remote index calls that a sequence of outgoing calls amounts to. -/
def remoteIndexCalls (env : K2PgEnv) : List Call → List Call
  | [] => []
  | c :: rest => amDispatch env c ++ remoteIndexCalls env rest

/-- An entry of a remote index: key values, null flags and the back-reference
to the owning row. -/
structure IndexEntry where
  index : Oid
  values : List Datum
  isnull : List Bool
  backref : TupleRef
deriving DecidableEq, Repr

/-- Modelled from the spec: the remote storage client (`K2PgExecuteInsertIndex`,
`K2PgExecuteDeleteIndex`, `K2PgDeleteIndexRowsByBaseK2Pgctid`, not under src/).
An insert adds one entry carrying the values and the back-reference; a
by-value delete removes the entry matching those exact values and
back-reference; a by-back-reference delete removes all entries of the index
that carry the back-reference, regardless of their key values. -/
def applyRemote (store : List IndexEntry) : Call → List IndexEntry
  | .K2PgExecuteInsertIndex r v n t => store ++ [{ index := r.rd_id, values := v, isnull := n, backref := t }]
  | .K2PgExecuteDeleteIndex r v n t =>
      store.filter (fun e => !decide (e = { index := r.rd_id, values := v, isnull := n, backref := t }))
  | .K2PgDeleteIndexRowsByBaseK2Pgctid r t =>
      store.filter (fun e => !(decide (e.index = r.rd_id) && decide (e.backref = t)))
  | _ => store

/-- The remote store after a sequence of remote index calls. -/
def applyRemoteAll : List IndexEntry → List Call → List IndexEntry
  | store, [] => store
  | store, c :: rest => applyRemoteAll (applyRemote store c) rest

/-- The remote store after the outgoing calls `calls` of a maintenance function. -/
def runCalls (env : K2PgEnv) (store : List IndexEntry) (calls : List Call) : List IndexEntry :=
  applyRemoteAll store (remoteIndexCalls env calls)

/-- The entries of index `oid` in the store. -/
def indexContents (oid : Oid) (store : List IndexEntry) : List IndexEntry :=
  store.filter (fun e => decide (e.index = oid))

/-- The entries of a list that are owned by the row `r`. -/
def ownedBy (r : TupleRef) (entries : List IndexEntry) : List IndexEntry :=
  entries.filter (fun e => decide (e.backref = r))

/-- The entries of a list that are owned by rows other than `r`. -/
def notOwnedBy (r : TupleRef) (entries : List IndexEntry) : List IndexEntry :=
  entries.filter (fun e => !decide (e.backref = r))

/-- The call is made for the index with the given oid. -/
def Call.onIndex (oid : Oid) (c : Call) : Bool :=
  match c.target with
  | some r => decide (r.rd_id = oid)
  | none => false

/-! ## Concrete inputs -/

/-- A `FormIndexDatum` that reads the key attributes (numbered from 1) out of
the tuple; a missing or NULL attribute gives value `0` with the null flag set. -/
def slotFormIndexDatum (info : IndexInfo) (tup : HeapTupleData) : List Datum × List Bool :=
  (info.ii_KeyAttrNumbers.map (fun a => ((tup.t_values.getD (a - 1) none).getD 0)),
   info.ii_KeyAttrNumbers.map (fun a => (tup.t_values.getD (a - 1) none).isNone))

/-- A catalog table. -/
def exHeap : RelationData := { rd_id := 1259, rd_index := { indisprimary := false, indisunique := false } }

/-- Its primary-key index. -/
def exPrimary : RelationData := { rd_id := 2662, rd_index := { indisprimary := true, indisunique := true } }

/-- A unique secondary index on attribute 2. -/
def exUnique : RelationData := { rd_id := 2663, rd_index := { indisprimary := false, indisunique := true } }

/-- A non-unique secondary index on attribute 3. -/
def exPlain : RelationData := { rd_id := 3455, rd_index := { indisprimary := false, indisunique := false } }

def exInfoPk : IndexInfo := { ii_KeyAttrNumbers := [1], ii_ReadyForInserts := true }
def exInfoUnique : IndexInfo := { ii_KeyAttrNumbers := [2], ii_ReadyForInserts := true }
def exInfoPlain : IndexInfo := { ii_KeyAttrNumbers := [3], ii_ReadyForInserts := true }
def exInfoNotReady : IndexInfo := { ii_KeyAttrNumbers := [3], ii_ReadyForInserts := false }

/-- Remote-backed mode: every relation is stored remotely. -/
def exRemoteEnv : K2PgEnv :=
  { IsK2PgEnabled := true
    IsK2PgRelation := fun _ => true
    K2PgRelHasSecondaryIndices := fun _ => true
    FormIndexDatum := slotFormIndexDatum
    ExecOpenIndices := fun _ => [(exPrimary, exInfoPk), (exUnique, exInfoUnique), (exPlain, exInfoPlain)] }

/-- Conventional local storage: remote-backed mode is off. -/
def exLocalEnv : K2PgEnv :=
  { IsK2PgEnabled := false
    IsK2PgRelation := fun _ => false
    K2PgRelHasSecondaryIndices := fun _ => true
    FormIndexDatum := slotFormIndexDatum
    ExecOpenIndices := fun _ => [(exPrimary, exInfoPk), (exUnique, exInfoUnique), (exPlain, exInfoPlain)] }

/-- A row (oid 7, name 11, owner 5) with logical record identifier 4096. -/
def exTuple : HeapTupleData :=
  { t_self := { ip_blkid := 0, ip_posid := 3 }, t_k2pgctid := 4096, heap_only := false,
    t_values := [some 7, some 11, some 5] }

/-- The same row without a logical record identifier. -/
def exTupleNoCtid : HeapTupleData := { exTuple with t_k2pgctid := 0 }

/-- The same row flagged as a heap-only (in-place) update. -/
def exTupleHeapOnly : HeapTupleData := { exTuple with heap_only := true }

/-- A remote store: in index 3455 an entry under key 9 owned by row 4096 and an
entry under key 5 owned by row 8192; in index 2663 an entry of row 4096. -/
def exStore : List IndexEntry :=
  [{ index := 3455, values := [9], isnull := [false], backref := TupleRef.k2pgctid 4096 },
   { index := 3455, values := [5], isnull := [false], backref := TupleRef.k2pgctid 8192 },
   { index := 2663, values := [11], isnull := [false], backref := TupleRef.k2pgctid 4096 }]

/-- A remote store in which row 4096 owns no entry. -/
def exStoreOther : List IndexEntry :=
  [{ index := 3455, values := [5], isnull := [false], backref := TupleRef.k2pgctid 8192 }]

/-! ## `k2_index_ops.cpp`: index scan -/

/-- `ScanDirection` (access/sdir.h): -1, 0 and 1. -/
inductive ScanDirection where
  | BackwardScanDirection
  | NoMovementScanDirection
  | ForwardScanDirection
deriving DecidableEq, Repr

/-- The fields of the execution parameters that `k2ingettuple` reads or writes. -/
structure K2PgExecParameters where
  limit_count : Int
  limit_use_default : Bool
deriving DecidableEq, Repr

/-- A scan key of the predicate. -/
structure ScanKeyData where
  sk_attno : Nat
  sk_argument : Datum
deriving DecidableEq, Repr

/-- An index tuple as the remote fetch returns it. -/
structure IndexTupleData where
  t_k2pgctid : Datum
  t_values : List (Option Datum)
deriving DecidableEq, Repr

/-- The remote query descriptor (`CamScanDesc`): `query` identifies the remote
query it stands for, `index_only_scan` is `prepare_params.index_only_scan`. -/
structure CamScanDescData where
  query : Nat
  index : Option RelationData
  exec_params : K2PgExecParameters
  index_only_scan : Bool
deriving DecidableEq, Repr

/-- The fields of the scan descriptor (`IndexScanDesc`) that the code reads or
writes.  `camScan` is the pointer `scan->opaque` (`none` for `NULL`),
`xs_ctup_t_k2pgctid` is `xs_ctup.t_k2pgctid`. -/
structure IndexScanDescData where
  heapRelation : Option RelationData
  indexRelation : RelationData
  xs_want_itup : Bool
  k2pg_exec_params : K2PgExecParameters
  camScan : Option CamScanDescData
  xs_recheck : Bool
  xs_ctup_t_k2pgctid : Datum
  xs_itup : Option IndexTupleData
  xs_itupdesc : Option RelationData
  xs_hitup : Option HeapTupleData
  xs_hitupdesc : Option RelationData
deriving DecidableEq, Repr

/-- A call of the scan functions into the remote scan module. -/
inductive ScanCall where
  | camBeginScan (heapRelation : Option RelationData) (indexRelation : RelationData)
      (xs_want_itup : Bool) (nscankeys : Int) (scankey : List ScanKeyData) (query : Nat)
  | camEndScan (k2can : Option CamScanDescData)
  | cam_getnext_indextuple (k2can : CamScanDescData) (is_forward_scan : Bool)
  | cam_getnext_heaptuple (k2can : CamScanDescData) (is_forward_scan : Bool)
deriving DecidableEq, Repr

/-- What has happened so far on the side of the remote scan module: the number
of remote queries begun (the next query gets this number), the calls made, and
whether every `Assert` evaluated so far held. -/
structure CamWorld where
  queries : Nat
  calls : List ScanCall
  assertsHold : Bool
deriving DecidableEq, Repr

/-- The functions of the engine and of the remote scan module that the scan
functions call for a value; they are parameters of the embedding.  The fetch
functions get the calls made so far, the descriptor, the direction and the
current value of `xs_recheck`, and give the tuple (`none` when the query is
exhausted) and the value of `xs_recheck` after the call. -/
structure CamEnv where
  RelationGetIndexScan : RelationData → Int → Int → IndexScanDescData
  camPrepare : Option RelationData → RelationData → Bool → Int → List ScanKeyData →
    CamScanDescData
  cam_getnext_indextuple : List ScanCall → CamScanDescData → Bool → Bool →
    Option IndexTupleData × Bool
  cam_getnext_heaptuple : List ScanCall → CamScanDescData → Bool → Bool →
    Option HeapTupleData × Bool

/-- `Assert(cond)`: recorded in the world, execution goes on. -/
def CamWorld.Assert (w : CamWorld) (cond : Bool) : CamWorld :=
  { w with assertsHold := w.assertsHold && cond }

/-- Modelled from the spec: `camBeginScan` (k2catam, not under src/) establishes
a new remote range/point query scoped to the predicate.  The new query gets
the next unused number; what else the descriptor holds is the parameter
`camPrepare`. -/
def camBeginScan (env : CamEnv) (w : CamWorld) (heapRelation : Option RelationData)
    (indexRelation : RelationData) (xs_want_itup : Bool) (nscankeys : Int)
    (scankey : List ScanKeyData) : CamScanDescData × CamWorld :=
  ({ env.camPrepare heapRelation indexRelation xs_want_itup nscankeys scankey with
      query := w.queries },
   { w with
      queries := w.queries + 1
      calls := w.calls ++
        [ScanCall.camBeginScan heapRelation indexRelation xs_want_itup nscankeys scankey
          w.queries] })

/-- Modelled from the spec: `camEndScan` (k2catam, not under src/) releases the
remote query of the descriptor it is given; the call is recorded. -/
def camEndScan (w : CamWorld) (k2can : Option CamScanDescData) : CamWorld :=
  { w with calls := w.calls ++ [ScanCall.camEndScan k2can] }

/-- `k2inbeginscan`. -/
def k2inbeginscan (env : CamEnv) (w : CamWorld) (rel : RelationData) (nkeys : Int)
    (norderbys : Int) : IndexScanDescData × CamWorld :=
  let w := w.Assert (norderbys == 0)
  let scan := env.RelationGetIndexScan rel nkeys norderbys
  ({ scan with camScan := none }, w)

/-- `k2inendscan`. -/
def k2inendscan (w : CamWorld) (scan : IndexScanDescData) : IndexScanDescData × CamWorld :=
  let k2can := scan.camScan
  let w := w.Assert k2can.isSome
  (scan, camEndScan w k2can)

/-- `k2inrescan`. -/
def k2inrescan (env : CamEnv) (w : CamWorld) (scan : IndexScanDescData)
    (scankey : List ScanKeyData) (nscankeys : Int) (_orderbys : List ScanKeyData)
    (_norderbys : Int) : IndexScanDescData × CamWorld :=
  let ended : IndexScanDescData × CamWorld :=
    if scan.camScan.isSome then
      let r := k2inendscan w scan
      ({ r.1 with camScan := none }, r.2)
    else (scan, w)
  let begun := camBeginScan env ended.2 ended.1.heapRelation ended.1.indexRelation
    ended.1.xs_want_itup nscankeys scankey
  let camScan := { begun.1 with index := some ended.1.indexRelation }
  ({ ended.1 with camScan := some camScan }, begun.2)

/-- What one call of `k2ingettuple` yields: the returned bool, the scan
descriptor and the world after the call. -/
structure GetTupleResult where
  result : Bool
  scan : IndexScanDescData
  world : CamWorld
deriving DecidableEq, Repr

/-- `k2ingettuple`.  The result is `none` when `scan->opaque` is `NULL`: the
function then writes through the null pointer. -/
def k2ingettuple (env : CamEnv) (w : CamWorld) (scan : IndexScanDescData)
    (dir : ScanDirection) : Option GetTupleResult :=
  let w := w.Assert (dir == ScanDirection.ForwardScanDirection ||
    dir == ScanDirection.BackwardScanDirection)
  let is_forward_scan : Bool := dir == ScanDirection.ForwardScanDirection
  match scan.camScan with
  | none => none
  | some k2can =>
    let k2can := { k2can with exec_params := scan.k2pg_exec_params }
    let k2can :=
      if !is_forward_scan && !k2can.exec_params.limit_use_default then
        { k2can with exec_params := { k2can.exec_params with limit_count := -1 } }
      else k2can
    let w := w.Assert true
    let scan := { scan with camScan := some k2can, xs_ctup_t_k2pgctid := 0 }
    if k2can.index_only_scan then
      let fetched := env.cam_getnext_indextuple w.calls k2can is_forward_scan scan.xs_recheck
      let w := { w with calls := w.calls ++ [ScanCall.cam_getnext_indextuple k2can is_forward_scan] }
      let scan := { scan with xs_recheck := fetched.2 }
      let scan :=
        match fetched.1 with
        | some tuple =>
          { scan with
            xs_ctup_t_k2pgctid := tuple.t_k2pgctid
            xs_itup := some tuple
            xs_itupdesc := some scan.indexRelation }
        | none => scan
      some { result := scan.xs_ctup_t_k2pgctid != 0, scan := scan, world := w }
    else
      let fetched := env.cam_getnext_heaptuple w.calls k2can is_forward_scan scan.xs_recheck
      let w := { w with calls := w.calls ++ [ScanCall.cam_getnext_heaptuple k2can is_forward_scan] }
      let scan := { scan with xs_recheck := fetched.2 }
      let scan :=
        match fetched.1 with
        | some tuple =>
          { scan with
            xs_ctup_t_k2pgctid := tuple.t_k2pgctid
            xs_hitup := some tuple
            xs_hitupdesc := scan.heapRelation }
        | none => scan
      some { result := scan.xs_ctup_t_k2pgctid != 0, scan := scan, world := w }

/-- `k2incanreturn`. -/
def k2incanreturn (index : RelationData) (_attno : Int) : Bool :=
  let result := !index.rd_index.indisprimary
  result

/-- The arguments of one `k2inrescan` call. -/
structure RescanArgs where
  scankey : List ScanKeyData
  nscankeys : Int
  orderbys : List ScanKeyData
  norderbys : Int
deriving DecidableEq, Repr

/-- A run of `k2inrescan` calls on one cursor, in order. -/
def rescanAll (env : CamEnv) :
    IndexScanDescData × CamWorld → List RescanArgs → IndexScanDescData × CamWorld
  | s, [] => s
  | s, a :: rest =>
      rescanAll env (k2inrescan env s.2 s.1 a.scankey a.nscankeys a.orderbys a.norderbys) rest

/-- The call begins a remote query. -/
def ScanCall.isBegin : ScanCall → Bool
  | .camBeginScan _ _ _ _ _ _ => true
  | _ => false

/-- The call ends a remote query. -/
def ScanCall.isEnd : ScanCall → Bool
  | .camEndScan _ => true
  | _ => false

/-- The remote queries that are begun and not ended after a sequence of calls,
starting from the queries `live`. -/
def liveQueries : List Nat → List ScanCall → List Nat
  | live, [] => live
  | live, .camBeginScan _ _ _ _ _ q :: rest => liveQueries (live ++ [q]) rest
  | live, .camEndScan (some d) :: rest => liveQueries (live.filter (fun q => q != d.query)) rest
  | live, _ :: rest => liveQueries live rest

/-- A remote scan module for the examples: index-only scans are prepared when
an index tuple is wanted; every fetch finds the row 4096, and asks for a
recheck when going backward. -/
def exCamEnv : CamEnv :=
  { RelationGetIndexScan := fun rel _ _ =>
      { heapRelation := some exHeap, indexRelation := rel, xs_want_itup := true,
        k2pg_exec_params := { limit_count := 10, limit_use_default := false },
        camScan := none, xs_recheck := false, xs_ctup_t_k2pgctid := 0,
        xs_itup := none, xs_itupdesc := none, xs_hitup := none, xs_hitupdesc := none }
    camPrepare := fun _ index want _ _ =>
      { query := 0, index := some index,
        exec_params := { limit_count := 0, limit_use_default := true },
        index_only_scan := want }
    cam_getnext_indextuple := fun _ _ fwd _ =>
      (some { t_k2pgctid := 4096, t_values := [some 5] }, !fwd)
    cam_getnext_heaptuple := fun _ _ fwd _ => (some exTuple, !fwd) }

/-- The same module with the remote query exhausted. -/
def exCamEnvExhausted : CamEnv :=
  { exCamEnv with
    cam_getnext_indextuple := fun _ _ _ r => (none, r)
    cam_getnext_heaptuple := fun _ _ _ r => (none, r) }

/-- A world in which nothing has happened yet. -/
def exWorld : CamWorld := { queries := 0, calls := [], assertsHold := true }

/-- A predicate on attribute 1. -/
def exRescanArgs : RescanArgs :=
  { scankey := [{ sk_attno := 1, sk_argument := 5 }], nscankeys := 1, orderbys := [], norderbys := 0 }

/-- A cursor on the secondary index, opened and bound once. -/
def exActiveScan : IndexScanDescData × CamWorld :=
  rescanAll exCamEnv (k2inbeginscan exCamEnv exWorld exPlain 1 0) [exRescanArgs]

/-- The remote query descriptor of that cursor. -/
def exActiveDesc : CamScanDescData :=
  { query := 0, index := some exPlain,
    exec_params := { limit_count := 0, limit_use_default := true }, index_only_scan := true }

/-- The same cursor set up to fetch base rows. -/
def exActiveHeapScan : IndexScanDescData :=
  { exActiveScan.1 with
    camScan := exActiveScan.1.camScan.map (fun d => { d with index_only_scan := false }) }

/-- The bound cursor after a call that matched row 4096. -/
def exMatchedScan : IndexScanDescData :=
  { exActiveScan.1 with xs_ctup_t_k2pgctid := 4096 }

/-- A cursor on the secondary index that is opened and never bound. -/
def exOpenedScan : IndexScanDescData × CamWorld :=
  k2inbeginscan exCamEnv exWorld exPlain 1 0

/-! ## `k2cat_cmds.cpp`: dropping an index -/

/-- Modelled from the spec: the status a remote call returns (`K2PgStatus`, not
under src/), in the taxonomy of the error handling design: success, not-found,
or another failure of the remote store. -/
inductive K2PgStatus where
  | OK
  | NotFound
  | Failure
deriving DecidableEq, Repr

/-- A statement handle (`K2PgStatement`). -/
abbrev K2PgStatement := Nat

/-- A call into the remote store made by `K2PgDropIndex`. -/
inductive GateCall where
  | PgGate_NewDropIndex (database_oid : Oid) (index_oid : Oid) (if_exists : Bool)
  | PgGate_ExecDropIndex (handle : K2PgStatement)
deriving DecidableEq, Repr

/-- What the remote store answers to the two calls; parameters of the embedding. -/
structure PgGate where
  PgGate_NewDropIndex : Oid → Oid → Bool → K2PgStatus × K2PgStatement
  PgGate_ExecDropIndex : K2PgStatement → K2PgStatus

/-- Modelled from the spec: `HandleK2PgStatusIgnoreNotFound` (k2pg_aux, not
under src/).  A not-found status is treated as a successful no-op and noted in
`not_found`; success changes nothing; any other failure of the remote store
escalates to an error.  The result is the value of `not_found` after the call,
or the error raised. -/
def HandleK2PgStatusIgnoreNotFound (status : K2PgStatus) (not_found : Bool) :
    Except K2PgStatus Bool :=
  match status with
  | .OK => .ok not_found
  | .NotFound => .ok true
  | .Failure => .error .Failure

/-- `K2PgDropIndex`: the calls made, and whether it returns or raises. -/
def K2PgDropIndex (gate : PgGate) (MyDatabaseId : Oid) (relationId : Oid) :
    List GateCall × Except K2PgStatus Unit :=
  let not_found := false
  let created := gate.PgGate_NewDropIndex MyDatabaseId relationId false
  let handle := created.2
  match HandleK2PgStatusIgnoreNotFound created.1 not_found with
  | .error e => ([GateCall.PgGate_NewDropIndex MyDatabaseId relationId false], .error e)
  | .ok not_found =>
    let valid_handle := !not_found
    if valid_handle then
      match HandleK2PgStatusIgnoreNotFound (gate.PgGate_ExecDropIndex handle) not_found with
      | .error e =>
        ([GateCall.PgGate_NewDropIndex MyDatabaseId relationId false,
          GateCall.PgGate_ExecDropIndex handle], .error e)
      | .ok _ =>
        ([GateCall.PgGate_NewDropIndex MyDatabaseId relationId false,
          GateCall.PgGate_ExecDropIndex handle], .ok ())
    else
      ([GateCall.PgGate_NewDropIndex MyDatabaseId relationId false], .ok ())

/-- Modelled from the spec: a remote store that holds the indexes `indexes` and
answers not-found for an index that no longer exists remotely.  The handle of
a drop statement is the oid of the index. -/
def remoteGate (indexes : List Oid) : PgGate :=
  { PgGate_NewDropIndex := fun _ index_oid _ =>
      if index_oid ∈ indexes then (K2PgStatus.OK, index_oid) else (K2PgStatus.NotFound, 0)
    PgGate_ExecDropIndex := fun handle =>
      if handle ∈ indexes then K2PgStatus.OK else K2PgStatus.NotFound }

/-- A remote store that fails to create the drop statement, with an error
other than not-found. -/
def exFailingGate : PgGate :=
  { PgGate_NewDropIndex := fun _ _ _ => (K2PgStatus.Failure, 0)
    PgGate_ExecDropIndex := fun _ => K2PgStatus.OK }

/-- Modelled from the spec: the indexes the remote store holds after the calls
`calls`; an executed drop removes its index. -/
def remoteIndexesAfter : List Oid → List GateCall → List Oid
  | indexes, [] => indexes
  | indexes, .PgGate_ExecDropIndex handle :: rest =>
      remoteIndexesAfter (indexes.filter (fun i => i != handle)) rest
  | indexes, _ :: rest => remoteIndexesAfter indexes rest

/-! ## `k2cat_cmds.cpp`: the columns of a new table -/

/-- `SortByDir` (nodes/parsenodes.h). -/
inductive SortByDir where
  | SORTBY_DEFAULT
  | SORTBY_ASC
  | SORTBY_DESC
  | SORTBY_USING
deriving DecidableEq, Repr

/-- `SortByNulls` (nodes/parsenodes.h). -/
inductive SortByNulls where
  | SORTBY_NULLS_DEFAULT
  | SORTBY_NULLS_FIRST
  | SORTBY_NULLS_LAST
deriving DecidableEq, Repr

/-- `ColumnSortingOptions`: the values written to `*is_desc` and
`*is_nulls_first`. -/
def ColumnSortingOptions (dir : SortByDir) (nulls : SortByNulls) : Bool × Bool :=
  if dir == SortByDir.SORTBY_DESC then
    (true, nulls != SortByNulls.SORTBY_NULLS_LAST)
  else
    (false, nulls == SortByNulls.SORTBY_NULLS_FIRST)

/-- The fields of an attribute (`Form_pg_attribute`) that the code reads. -/
structure FormData_pg_attribute where
  attname : String
  attnum : Int
  atttypid : Oid
  attlen : Int
  attbyval : Bool
deriving DecidableEq, Repr

/-- A tuple descriptor: `natts` attributes. -/
structure TupleDescData where
  attrs : List FormData_pg_attribute
deriving DecidableEq, Repr

/-- A key column of a primary-key constraint (`IndexElem`). -/
structure IndexElem where
  name : String
  ordering : SortByDir
  nulls_ordering : SortByNulls
deriving DecidableEq, Repr

/-- A primary-key constraint: its key columns in declared order. -/
structure Constraint where
  k2pg_index_params : List IndexElem
deriving DecidableEq, Repr

/-- A column of the remote create statement (`K2PGColumnDef`). -/
structure K2PGColumnDef where
  attr_name : String
  attr_num : Int
  type_oid : Oid
  attr_size : Int
  attr_byvalue : Bool
  is_key : Bool
  is_desc : Bool
  is_nulls_first : Bool
deriving DecidableEq, Repr

/-- The errors `CreateTableAddColumns` reports: `ereport(ERROR, ...)` for a key
column of a type that is not supported, `ereport(FATAL, ...)` for a key column
that is not found in the table. -/
inductive ErrorReport where
  | ERROR_FEATURE_NOT_SUPPORTED (atttypid : Oid)
  | FATAL_INTERNAL_ERROR (name : String)
deriving DecidableEq, Repr

/-- `CreateTableAddColumn`: the column is pushed to the back of `columns`. -/
def CreateTableAddColumn (att : FormData_pg_attribute) (is_primary is_desc is_nulls_first : Bool)
    (columns : List K2PGColumnDef) : List K2PGColumnDef :=
  columns ++
    [{ attr_name := att.attname, attr_num := att.attnum, type_oid := att.atttypid,
       attr_size := att.attlen, attr_byvalue := att.attbyval, is_key := is_primary,
       is_desc := is_desc, is_nulls_first := is_nulls_first }]

/-- The inner `for` loop of the key-column pass of `CreateTableAddColumns`, over
the attributes from position `i` on: `none` when it ends with `column_found`
still false. -/
def CreateTableAddColumns_find (K2PgAllowForPrimaryKey : Oid → Int → Bool → Bool)
    (index_elem : IndexElem) (columns : List K2PGColumnDef) :
    List FormData_pg_attribute → Option (Except ErrorReport (List K2PGColumnDef))
  | [] => none
  | att :: rest =>
    if att.attname == index_elem.name then
      if !K2PgAllowForPrimaryKey att.atttypid att.attlen att.attbyval then
        some (.error (ErrorReport.ERROR_FEATURE_NOT_SUPPORTED att.atttypid))
      else
        let order := index_elem.ordering
        let sorting := ColumnSortingOptions order index_elem.nulls_ordering
        some (.ok (CreateTableAddColumn att true sorting.1 sorting.2 columns))
    else CreateTableAddColumns_find K2PgAllowForPrimaryKey index_elem columns rest

/-- The `foreach` loop over the key columns of `CreateTableAddColumns`. -/
def CreateTableAddColumns_keys (K2PgAllowForPrimaryKey : Oid → Int → Bool → Bool)
    (desc : TupleDescData) :
    List IndexElem → List K2PGColumnDef → Except ErrorReport (List K2PGColumnDef)
  | [], columns => .ok columns
  | index_elem :: rest, columns =>
    match CreateTableAddColumns_find K2PgAllowForPrimaryKey index_elem columns desc.attrs with
    | some (.ok columns) => CreateTableAddColumns_keys K2PgAllowForPrimaryKey desc rest columns
    | some (.error e) => .error e
    | none => .error (ErrorReport.FATAL_INTERNAL_ERROR index_elem.name)

/-- The inner `foreach` loop of the second pass: is the attribute a key column? -/
def CreateTableAddColumns_is_key (att : FormData_pg_attribute) : List IndexElem → Bool
  | [] => false
  | index_elem :: rest =>
    if att.attname == index_elem.name then true
    else CreateTableAddColumns_is_key att rest

/-- The second `for` loop of `CreateTableAddColumns`: the non-key columns. -/
def CreateTableAddColumns_rest (primary_key : Option Constraint) :
    List FormData_pg_attribute → List K2PGColumnDef → List K2PGColumnDef
  | [], columns => columns
  | att :: rest, columns =>
    let is_key :=
      match primary_key with
      | some pk => CreateTableAddColumns_is_key att pk.k2pg_index_params
      | none => false
    CreateTableAddColumns_rest primary_key rest
      (if !is_key then CreateTableAddColumn att false false false columns else columns)

/-- `CreateTableAddColumns`: the filled column vector, or the error reported. -/
def CreateTableAddColumns (K2PgAllowForPrimaryKey : Oid → Int → Bool → Bool)
    (desc : TupleDescData) (primary_key : Option Constraint) (columns : List K2PGColumnDef) :
    Except ErrorReport (List K2PGColumnDef) :=
  let keyed :=
    match primary_key with
    | some pk => CreateTableAddColumns_keys K2PgAllowForPrimaryKey desc pk.k2pg_index_params columns
    | none => .ok columns
  match keyed with
  | .error e => .error e
  | .ok columns => .ok (CreateTableAddColumns_rest primary_key desc.attrs columns)

/-- The attribute a column was made from. -/
def K2PGColumnDef.attribute (c : K2PGColumnDef) : FormData_pg_attribute :=
  { attname := c.attr_name, attnum := c.attr_num, atttypid := c.type_oid,
    attlen := c.attr_size, attbyval := c.attr_byvalue }

/-- The key column made from attribute `att` for the key element `e`. -/
def keyColumn (att : FormData_pg_attribute) (e : IndexElem) : K2PGColumnDef :=
  { attr_name := att.attname, attr_num := att.attnum, type_oid := att.atttypid,
    attr_size := att.attlen, attr_byvalue := att.attbyval, is_key := true,
    is_desc := (ColumnSortingOptions e.ordering e.nulls_ordering).1,
    is_nulls_first := (ColumnSortingOptions e.ordering e.nulls_ordering).2 }

/-- The non-key column made from attribute `att`: ascending, nulls last. -/
def plainColumn (att : FormData_pg_attribute) : K2PGColumnDef :=
  { attr_name := att.attname, attr_num := att.attnum, type_oid := att.atttypid,
    attr_size := att.attlen, attr_byvalue := att.attbyval, is_key := false,
    is_desc := false, is_nulls_first := false }

/-! ## The maintenance rule of the spec -/

/-- The rule as the spec words it, for insertion and both deletion strategies
alike: an index is maintained when it is not the primary index of a
remote-backed table and is ready for inserts. -/
def specMaintained (env : K2PgEnv) (ix : RelationData × IndexInfo) : Bool :=
  !(env.IsK2PgEnabled && ix.1.rd_index.indisprimary) && ix.2.ii_ReadyForInserts

/-! ## Concrete inputs for the catalog commands -/

/-- A table (id, name, score). -/
def exDesc : TupleDescData :=
  { attrs :=
      [{ attname := "id", attnum := 1, atttypid := 23, attlen := 4, attbyval := true },
       { attname := "name", attnum := 2, atttypid := 25, attlen := -1, attbyval := false },
       { attname := "score", attnum := 3, atttypid := 23, attlen := 4, attbyval := true }] }

/-- PRIMARY KEY (score DESC, id). -/
def exPrimaryKey : Constraint :=
  { k2pg_index_params :=
      [{ name := "score", ordering := SortByDir.SORTBY_DESC,
         nulls_ordering := SortByNulls.SORTBY_NULLS_DEFAULT },
       { name := "id", ordering := SortByDir.SORTBY_DEFAULT,
         nulls_ordering := SortByNulls.SORTBY_NULLS_DEFAULT }] }

/-- PRIMARY KEY (id, missing). -/
def exPrimaryKeyMissing : Constraint :=
  { k2pg_index_params :=
      [{ name := "id", ordering := SortByDir.SORTBY_DEFAULT,
         nulls_ordering := SortByNulls.SORTBY_NULLS_DEFAULT },
       { name := "missing", ordering := SortByDir.SORTBY_DEFAULT,
         nulls_ordering := SortByNulls.SORTBY_NULLS_DEFAULT }] }

/-- Every type is allowed in a primary key. -/
def exAllowAll : Oid → Int → Bool → Bool := fun _ _ _ => true

/-! ## Basic facts about the loops -/

theorem CatalogIndexInsert_loop_append (env : K2PgEnv) (heap : RelationData)
    (tup : HeapTupleData) (a b : List (RelationData × IndexInfo)) :
    CatalogIndexInsert_loop env heap tup (a ++ b) =
      CatalogIndexInsert_loop env heap tup a ++ CatalogIndexInsert_loop env heap tup b := by
  induction a with
  | nil => simp [CatalogIndexInsert_loop]
  | cons x xs ih => simp [CatalogIndexInsert_loop, ih]

theorem CatalogIndexDelete_loop_append (env : K2PgEnv) (tup : HeapTupleData)
    (a b : List (RelationData × IndexInfo)) :
    CatalogIndexDelete_loop env tup (a ++ b) =
      CatalogIndexDelete_loop env tup a ++ CatalogIndexDelete_loop env tup b := by
  induction a with
  | nil => simp [CatalogIndexDelete_loop]
  | cons x xs ih => simp [CatalogIndexDelete_loop, ih]

/-- The early return on `numIndexes == 0` agrees with running the loop zero times. -/
theorem CatalogIndexInsert_eq_loop (env : K2PgEnv) (indstate : ResultRelInfo)
    (tup : HeapTupleData) :
    CatalogIndexInsert env indstate tup =
      if tup.heap_only then []
      else CatalogIndexInsert_loop env indstate.ri_RelationDesc tup indstate.ri_indexes := by
  unfold CatalogIndexInsert ResultRelInfo.ri_NumIndices
  cases h : indstate.ri_indexes with
  | nil => simp [CatalogIndexInsert_loop]
  | cons x xs => simp

/-- The early return on `numIndexes == 0` agrees with running the loop zero times. -/
theorem CatalogIndexDelete_eq_loop (env : K2PgEnv) (indstate : ResultRelInfo)
    (tup : HeapTupleData) :
    CatalogIndexDelete env indstate tup =
      CatalogIndexDelete_loop env tup indstate.ri_indexes := by
  unfold CatalogIndexDelete ResultRelInfo.ri_NumIndices
  cases h : indstate.ri_indexes with
  | nil => simp [CatalogIndexDelete_loop]
  | cons x xs => simp

/-- In remote-backed mode an iteration of the insert loop makes calls only for a
non-primary index. -/
theorem CatalogIndexInsert_loop_target (env : K2PgEnv) (hk : env.IsK2PgEnabled = true)
    (heap : RelationData) (tup : HeapTupleData) (ixs : List (RelationData × IndexInfo)) :
    ∀ c ∈ CatalogIndexInsert_loop env heap tup ixs, ∀ r, c.target = some r →
      r.rd_index.indisprimary = false := by
  induction ixs with
  | nil => simp [CatalogIndexInsert_loop]
  | cons x xs ih =>
    intro c hc r hr
    simp only [CatalogIndexInsert_loop, List.mem_append] at hc
    rcases hc with hc | hc
    · unfold CatalogIndexInsert_iter at hc
      rw [hk] at hc
      cases hp : x.1.rd_index.indisprimary <;> cases hrdy : x.2.ii_ReadyForInserts <;>
        simp [hp, hrdy] at hc
      subst hc
      simp [Call.target] at hr
      subst hr
      exact hp
    · exact ih c hc r hr

/-- In remote-backed mode an iteration of the delete loop makes calls only for a
non-primary index. -/
theorem CatalogIndexDelete_loop_target (env : K2PgEnv) (hk : env.IsK2PgEnabled = true)
    (tup : HeapTupleData) (ixs : List (RelationData × IndexInfo)) :
    ∀ c ∈ CatalogIndexDelete_loop env tup ixs, ∀ r, c.target = some r →
      r.rd_index.indisprimary = false := by
  induction ixs with
  | nil => simp [CatalogIndexDelete_loop]
  | cons x xs ih =>
    intro c hc r hr
    simp only [CatalogIndexDelete_loop, List.mem_append] at hc
    rcases hc with hc | hc
    · unfold CatalogIndexDelete_iter at hc
      rw [hk] at hc
      cases hp : x.1.rd_index.indisprimary <;> cases hrdy : x.2.ii_ReadyForInserts <;>
        cases hrel : env.IsK2PgRelation x.1 <;> simp [hp, hrdy, hrel] at hc
      all_goals
        subst hc
        simp [Call.target] at hr
        subst hr
        exact hp
    · exact ih c hc r hr

theorem remoteIndexCalls_append (env : K2PgEnv) (a b : List Call) :
    remoteIndexCalls env (a ++ b) = remoteIndexCalls env a ++ remoteIndexCalls env b := by
  induction a with
  | nil => simp [remoteIndexCalls]
  | cons x xs ih => simp [remoteIndexCalls, ih]

/-- The remote calls that the insert loop amounts to are made for non-primary
indexes only, in every mode. -/
theorem remote_insert_loop_target (env : K2PgEnv) (heap : RelationData) (tup : HeapTupleData)
    (ixs : List (RelationData × IndexInfo)) :
    ∀ c ∈ remoteIndexCalls env (CatalogIndexInsert_loop env heap tup ixs), ∀ r,
      c.target = some r → r.rd_index.indisprimary = false := by
  induction ixs with
  | nil => simp [CatalogIndexInsert_loop, remoteIndexCalls]
  | cons x xs ih =>
    intro c hc r hr
    simp only [CatalogIndexInsert_loop, remoteIndexCalls_append, List.mem_append] at hc
    rcases hc with hc | hc
    · unfold CatalogIndexInsert_iter at hc
      cases hk : env.IsK2PgEnabled <;> cases hp : x.1.rd_index.indisprimary <;>
        cases hrdy : x.2.ii_ReadyForInserts <;> cases hrel : env.IsK2PgRelation x.1 <;>
        simp [hk, hp, hrdy, hrel, remoteIndexCalls, amDispatch, k2ininsert] at hc
      all_goals
        subst hc
        simp [Call.target] at hr
        subst hr
        exact hp
    · exact ih c hc r hr

/-- The remote calls that the delete loop amounts to are made for non-primary
indexes only, unless remote-backed mode is off and the index is remote-backed
all the same. -/
theorem remote_delete_loop_target (env : K2PgEnv) (tup : HeapTupleData)
    (ixs : List (RelationData × IndexInfo)) :
    ∀ c ∈ remoteIndexCalls env (CatalogIndexDelete_loop env tup ixs), ∀ r,
      c.target = some r →
      r.rd_index.indisprimary = false ∨
        (env.IsK2PgEnabled = false ∧ env.IsK2PgRelation r = true) := by
  induction ixs with
  | nil => simp [CatalogIndexDelete_loop, remoteIndexCalls]
  | cons x xs ih =>
    intro c hc r hr
    simp only [CatalogIndexDelete_loop, remoteIndexCalls_append, List.mem_append] at hc
    rcases hc with hc | hc
    · unfold CatalogIndexDelete_iter at hc
      cases hk : env.IsK2PgEnabled <;> cases hp : x.1.rd_index.indisprimary <;>
        cases hrdy : x.2.ii_ReadyForInserts <;> cases hrel : env.IsK2PgRelation x.1 <;>
        simp [hk, hp, hrdy, hrel, remoteIndexCalls, amDispatch, k2indelete] at hc
      all_goals
        subst hc
        simp [Call.target] at hr
        subst hr
        first
          | exact Or.inl hp
          | exact Or.inr ⟨rfl, hrel⟩
    · exact ih c hc r hr

/-! ## C1: the primary index is not maintained separately -/

/-- C1.  For every row and every index flagged primary, index maintenance issues
no remote call for that index.  In remote-backed mode (`IsK2PgEnabled()` true)
the loops of `CatalogIndexInsert` and `CatalogIndexDelete` skip the index: the
calls they make are those made for the index set without it, and no call at
all is made for it.  In every mode none of the remote calls that
`CatalogIndexInsert` amounts to is made for it, and none of those of
`CatalogIndexDelete` either (when remote-backed mode is off, for an index that
is then not remote-backed).  `k2ininsert` and `k2indelete` issue no remote
insert / delete for a primary index, in every mode. -/
theorem primary_index_issues_no_calls (env : K2PgEnv) (heap rel : RelationData)
    (info : IndexInfo) (pre post : List (RelationData × IndexInfo)) (tup : HeapTupleData)
    (values : List Datum) (isnull : List Bool) (k2pgctid : TupleRef)
    (checkUnique : IndexUniqueCheck)
    (hprimary : rel.rd_index.indisprimary = true) :
    (env.IsK2PgEnabled = true →
      CatalogIndexInsert env ⟨heap, pre ++ (rel, info) :: post⟩ tup =
        CatalogIndexInsert env ⟨heap, pre ++ post⟩ tup ∧
      CatalogIndexDelete env ⟨heap, pre ++ (rel, info) :: post⟩ tup =
        CatalogIndexDelete env ⟨heap, pre ++ post⟩ tup ∧
      (∀ c ∈ CatalogIndexInsert env ⟨heap, pre ++ (rel, info) :: post⟩ tup ++
              CatalogIndexDelete env ⟨heap, pre ++ (rel, info) :: post⟩ tup,
          c.target ≠ some rel)) ∧
    (k2ininsert rel values isnull k2pgctid heap checkUnique).1 = [] ∧
    k2indelete rel values isnull k2pgctid = [] ∧
    (∀ c ∈ remoteIndexCalls env (CatalogIndexInsert env ⟨heap, pre ++ (rel, info) :: post⟩ tup),
      c.target ≠ some rel) ∧
    ((env.IsK2PgEnabled = true ∨ env.IsK2PgRelation rel = false) →
      ∀ c ∈ remoteIndexCalls env (CatalogIndexDelete env ⟨heap, pre ++ (rel, info) :: post⟩ tup),
        c.target ≠ some rel) := by
  refine ⟨fun hk => ⟨?_, ?_, ?_⟩, ?_, ?_, ?_, ?_⟩
  rotate_left 5
  · intro c hc htarget
    rw [CatalogIndexInsert_eq_loop] at hc
    split at hc
    · simp [remoteIndexCalls] at hc
    · have hnp := remote_insert_loop_target env heap tup _ c hc rel htarget
      rw [hprimary] at hnp
      exact Bool.noConfusion hnp
  · intro hmode c hc htarget
    rw [CatalogIndexDelete_eq_loop] at hc
    rcases remote_delete_loop_target env tup _ c hc rel htarget with hnp | ⟨hoff, hrem⟩
    · rw [hprimary] at hnp
      exact Bool.noConfusion hnp
    · rcases hmode with hon | hloc
      · rw [hoff] at hon
        exact Bool.noConfusion hon
      · rw [hrem] at hloc
        exact Bool.noConfusion hloc
  · simp [CatalogIndexInsert_eq_loop, CatalogIndexInsert_loop_append, CatalogIndexInsert_loop,
      CatalogIndexInsert_iter, hk, hprimary]
  · simp [CatalogIndexDelete_eq_loop, CatalogIndexDelete_loop_append, CatalogIndexDelete_loop,
      CatalogIndexDelete_iter, hk, hprimary]
  · intro c hc htarget
    rw [List.mem_append] at hc
    have hnp : rel.rd_index.indisprimary = false := by
      rcases hc with hc | hc
      · rw [CatalogIndexInsert_eq_loop] at hc
        split at hc
        · simp at hc
        · exact CatalogIndexInsert_loop_target env hk _ tup _ c hc rel htarget
      · rw [CatalogIndexDelete_eq_loop] at hc
        exact CatalogIndexDelete_loop_target env hk tup _ c hc rel htarget
    rw [hprimary] at hnp
    exact Bool.noConfusion hnp
  · simp [k2ininsert, hprimary]
  · simp [k2indelete, hprimary]

/-- C1, at concrete inputs: the catalog table with its primary-key index
between two secondary indexes in remote-backed mode, and the same table in
conventional local storage. -/
theorem primary_index_issues_no_calls_witness :
    exPrimary.rd_index.indisprimary = true ∧
    exRemoteEnv.IsK2PgEnabled = true ∧
    CatalogIndexInsert exRemoteEnv
        ⟨exHeap, [(exUnique, exInfoUnique)] ++ (exPrimary, exInfoPk) :: [(exPlain, exInfoPlain)]⟩
        exTuple =
      CatalogIndexInsert exRemoteEnv
        ⟨exHeap, [(exUnique, exInfoUnique)] ++ [(exPlain, exInfoPlain)]⟩ exTuple ∧
    (k2ininsert exPrimary [7] [false] (TupleRef.k2pgctid 4096) exHeap
        IndexUniqueCheck.UNIQUE_CHECK_YES).1 = [] ∧
    (∀ c ∈ remoteIndexCalls exRemoteEnv
        (CatalogIndexDelete exRemoteEnv
          ⟨exHeap, [(exUnique, exInfoUnique)] ++ (exPrimary, exInfoPk) :: [(exPlain, exInfoPlain)]⟩
          exTuple),
      c.target ≠ some exPrimary) ∧
    exLocalEnv.IsK2PgRelation exPrimary = false ∧
    (∀ c ∈ remoteIndexCalls exLocalEnv
        (CatalogIndexDelete exLocalEnv
          ⟨exHeap, [(exUnique, exInfoUnique)] ++ (exPrimary, exInfoPk) :: [(exPlain, exInfoPlain)]⟩
          exTuple),
      c.target ≠ some exPrimary) :=
  have h := primary_index_issues_no_calls exRemoteEnv exHeap exPrimary exInfoPk
    [(exUnique, exInfoUnique)] [(exPlain, exInfoPlain)] exTuple [7] [false]
    (TupleRef.k2pgctid 4096) IndexUniqueCheck.UNIQUE_CHECK_YES rfl
  have g := primary_index_issues_no_calls exLocalEnv exHeap exPrimary exInfoPk
    [(exUnique, exInfoUnique)] [(exPlain, exInfoPlain)] exTuple [7] [false]
    (TupleRef.k2pgctid 4096) IndexUniqueCheck.UNIQUE_CHECK_YES rfl
  ⟨rfl, rfl, (h.1 rfl).1, h.2.1, h.2.2.2.2 (Or.inl rfl), rfl, g.2.2.2.2 (Or.inr rfl)⟩

/-! ## C2: an index that is not ready for inserts is left alone -/

/-- C2.  For every index whose `ii_ReadyForInserts` is false and every row,
the loop iteration of `CatalogIndexInsert` and of `CatalogIndexDelete` for that
index makes no call, and the loops go on with the remaining indexes: the calls
made are exactly those made for the index set without that index. -/
theorem not_ready_index_issues_no_calls (env : K2PgEnv) (heap rel : RelationData)
    (info : IndexInfo) (pre post : List (RelationData × IndexInfo)) (tup : HeapTupleData)
    (hready : info.ii_ReadyForInserts = false) :
    CatalogIndexInsert_iter env heap tup (rel, info) = [] ∧
    CatalogIndexDelete_iter env tup (rel, info) = [] ∧
    CatalogIndexInsert env ⟨heap, pre ++ (rel, info) :: post⟩ tup =
      CatalogIndexInsert env ⟨heap, pre ++ post⟩ tup ∧
    CatalogIndexDelete env ⟨heap, pre ++ (rel, info) :: post⟩ tup =
      CatalogIndexDelete env ⟨heap, pre ++ post⟩ tup := by
  have hi : CatalogIndexInsert_iter env heap tup (rel, info) = [] := by
    simp [CatalogIndexInsert_iter, hready]
  have hd : CatalogIndexDelete_iter env tup (rel, info) = [] := by
    simp [CatalogIndexDelete_iter, hready]
  refine ⟨hi, hd, ?_, ?_⟩
  · simp [CatalogIndexInsert_eq_loop, CatalogIndexInsert_loop_append, CatalogIndexInsert_loop, hi]
  · simp [CatalogIndexDelete_eq_loop, CatalogIndexDelete_loop_append, CatalogIndexDelete_loop, hd]

/-- C2, at a concrete input: a backfilling index between two ready ones. -/
theorem not_ready_index_issues_no_calls_witness :
    exInfoNotReady.ii_ReadyForInserts = false ∧
    CatalogIndexInsert exRemoteEnv
        ⟨exHeap, [(exUnique, exInfoUnique)] ++ (exPlain, exInfoNotReady) :: [(exPlain, exInfoPlain)]⟩
        exTuple =
      CatalogIndexInsert exRemoteEnv
        ⟨exHeap, [(exUnique, exInfoUnique)] ++ [(exPlain, exInfoPlain)]⟩ exTuple ∧
    CatalogIndexDelete exRemoteEnv
        ⟨exHeap, [(exUnique, exInfoUnique)] ++ (exPlain, exInfoNotReady) :: [(exPlain, exInfoPlain)]⟩
        exTuple =
      CatalogIndexDelete exRemoteEnv
        ⟨exHeap, [(exUnique, exInfoUnique)] ++ [(exPlain, exInfoPlain)]⟩ exTuple :=
  have h := not_ready_index_issues_no_calls exRemoteEnv exHeap exPlain exInfoNotReady
    [(exUnique, exInfoUnique)] [(exPlain, exInfoPlain)] exTuple rfl
  ⟨rfl, h.2.2.1, h.2.2.2⟩

/-! ## C3: the uniqueness request -/

/-- Every `index_insert` call of the insert loop asks for a uniqueness check
exactly when its index is declared unique. -/
theorem CatalogIndexInsert_loop_unique (env : K2PgEnv) (heap : RelationData)
    (tup : HeapTupleData) (ixs : List (RelationData × IndexInfo)) :
    ∀ r v n t h cu, Call.index_insert r v n t h cu ∈ CatalogIndexInsert_loop env heap tup ixs →
      (cu = IndexUniqueCheck.UNIQUE_CHECK_YES ↔ r.rd_index.indisunique = true) := by
  induction ixs with
  | nil => simp [CatalogIndexInsert_loop]
  | cons x xs ih =>
    intro r v n t h cu hc
    simp only [CatalogIndexInsert_loop, List.mem_append] at hc
    rcases hc with hc | hc
    · unfold CatalogIndexInsert_iter at hc
      split at hc
      · simp at hc
      · split at hc
        · simp at hc
        · simp only [List.mem_singleton, Call.index_insert.injEq] at hc
          obtain ⟨hr, -, -, -, -, hcu⟩ := hc
          subst hr
          cases hu : x.1.rd_index.indisunique <;> simp [hu] at hcu <;> simp [hcu]
    · exact ih r v n t h cu hc

/-- C3 (as amended).  For every ready, non-primary index processed by
`CatalogIndexInsert` for a row that is not a heap-only update, exactly one
`index_insert` call is issued for that index, between the calls for the
indexes before and after it, and it carries `UNIQUE_CHECK_YES` when the index
is declared unique and `UNIQUE_CHECK_NO` otherwise; every `index_insert` call
of `CatalogIndexInsert` asks for the check if and only if its index is unique.
`k2ininsert` does not pass the request on: for either value of `checkUnique`
its remote insert is `K2PgExecuteInsertIndex(index, values, isnull, k2pgctid)`,
and it returns whether the index is unique. -/
theorem unique_check_requested_iff_unique (env : K2PgEnv) (heap rel : RelationData)
    (info : IndexInfo) (pre post : List (RelationData × IndexInfo)) (tup : HeapTupleData)
    (hprimary : rel.rd_index.indisprimary = false)
    (hready : info.ii_ReadyForInserts = true)
    (hhot : tup.heap_only = false) :
    CatalogIndexInsert env ⟨heap, pre ++ (rel, info) :: post⟩ tup =
      CatalogIndexInsert env ⟨heap, pre⟩ tup ++
        [Call.index_insert rel (env.FormIndexDatum info tup).1 (env.FormIndexDatum info tup).2
          (if env.IsK2PgRelation rel then TupleRef.k2pgctid tup.t_k2pgctid
           else TupleRef.t_self tup.t_self)
          heap
          (if rel.rd_index.indisunique then IndexUniqueCheck.UNIQUE_CHECK_YES
           else IndexUniqueCheck.UNIQUE_CHECK_NO)] ++
        CatalogIndexInsert env ⟨heap, post⟩ tup ∧
    (∀ r v n t h cu,
      Call.index_insert r v n t h cu ∈ CatalogIndexInsert env ⟨heap, pre ++ (rel, info) :: post⟩ tup →
        (cu = IndexUniqueCheck.UNIQUE_CHECK_YES ↔ r.rd_index.indisunique = true)) ∧
    (∀ v n t cu, k2ininsert rel v n t heap cu =
      ([Call.K2PgExecuteInsertIndex rel v n t], rel.rd_index.indisunique)) := by
  refine ⟨?_, ?_, ?_⟩
  · simp [CatalogIndexInsert_eq_loop, CatalogIndexInsert_loop_append, CatalogIndexInsert_loop,
      CatalogIndexInsert_iter, hprimary, hready, hhot]
  · intro r v n t h cu hc
    rw [CatalogIndexInsert_eq_loop] at hc
    simp only [hhot] at hc
    exact CatalogIndexInsert_loop_unique env heap tup _ r v n t h cu hc
  · intro v n t cu
    cases hu : rel.rd_index.indisunique <;> simp [k2ininsert, hprimary, hu]

/-- C3, at a concrete input: a unique and a non-unique secondary index. -/
theorem unique_check_requested_iff_unique_witness :
    exUnique.rd_index.indisprimary = false ∧ exInfoUnique.ii_ReadyForInserts = true ∧
    exTuple.heap_only = false ∧
    CatalogIndexInsert exRemoteEnv ⟨exHeap, [] ++ (exUnique, exInfoUnique) :: [(exPlain, exInfoPlain)]⟩
        exTuple =
      [Call.index_insert exUnique [11] [false] (TupleRef.k2pgctid 4096) exHeap
          IndexUniqueCheck.UNIQUE_CHECK_YES,
       Call.index_insert exPlain [5] [false] (TupleRef.k2pgctid 4096) exHeap
          IndexUniqueCheck.UNIQUE_CHECK_NO] :=
  ⟨rfl, rfl, rfl,
    (unique_check_requested_iff_unique exRemoteEnv exHeap exUnique exInfoUnique []
      [(exPlain, exInfoPlain)] exTuple rfl rfl rfl).1.trans (by decide)⟩

/-- C3 as stated fails in its last part: the uniqueness request that
`CatalogIndexInsert` hands to `index_insert` for a unique index is not passed
on to the remote insert; `k2ininsert` issues the same remote call whether it
is given `UNIQUE_CHECK_YES` or `UNIQUE_CHECK_NO`. -/
theorem unique_check_not_passed_to_remote_insert :
    CatalogIndexInsert exRemoteEnv ⟨exHeap, [(exUnique, exInfoUnique)]⟩ exTuple =
      [Call.index_insert exUnique [11] [false] (TupleRef.k2pgctid 4096) exHeap
        IndexUniqueCheck.UNIQUE_CHECK_YES] ∧
    (k2ininsert exUnique [11] [false] (TupleRef.k2pgctid 4096) exHeap
        IndexUniqueCheck.UNIQUE_CHECK_YES).1 =
      [Call.K2PgExecuteInsertIndex exUnique [11] [false] (TupleRef.k2pgctid 4096)] ∧
    (k2ininsert exUnique [11] [false] (TupleRef.k2pgctid 4096) exHeap
        IndexUniqueCheck.UNIQUE_CHECK_NO).1 =
      (k2ininsert exUnique [11] [false] (TupleRef.k2pgctid 4096) exHeap
        IndexUniqueCheck.UNIQUE_CHECK_YES).1 := by
  refine ⟨?_, ?_, ?_⟩ <;> decide

/-! ## C4: order of effects of an update -/

/-- In remote-backed mode, with every index of the set remote-backed, the delete
loop issues one by-back-reference delete per non-primary, ready index. -/
theorem CatalogIndexDelete_loop_remote (env : K2PgEnv) (hk : env.IsK2PgEnabled = true)
    (tup : HeapTupleData) (ixs : List (RelationData × IndexInfo))
    (hrem : ∀ ix ∈ ixs, env.IsK2PgRelation ix.1 = true) :
    CatalogIndexDelete_loop env tup ixs =
      (ixs.filter (fun ix => !ix.1.rd_index.indisprimary && ix.2.ii_ReadyForInserts)).map
        (fun ix => Call.K2PgDeleteIndexRowsByBaseK2Pgctid ix.1 (TupleRef.k2pgctid tup.t_k2pgctid)) := by
  induction ixs with
  | nil => simp [CatalogIndexDelete_loop]
  | cons x xs ih =>
    have hx : env.IsK2PgRelation x.1 = true := hrem x (List.mem_cons_self _ _)
    have hxs := ih (fun ix hix => hrem ix (List.mem_cons_of_mem _ hix))
    cases hp : x.1.rd_index.indisprimary <;> cases hrdy : x.2.ii_ReadyForInserts <;>
      simp [CatalogIndexDelete_loop, CatalogIndexDelete_iter, hk, hx, hxs, hp, hrdy]

/-- In remote-backed mode, with every index of the set remote-backed, the insert
loop issues one `index_insert` per non-primary, ready index, formed from the
given row and carrying its logical record identifier. -/
theorem CatalogIndexInsert_loop_remote (env : K2PgEnv) (hk : env.IsK2PgEnabled = true)
    (heap : RelationData) (tup : HeapTupleData) (ixs : List (RelationData × IndexInfo))
    (hrem : ∀ ix ∈ ixs, env.IsK2PgRelation ix.1 = true) :
    CatalogIndexInsert_loop env heap tup ixs =
      (ixs.filter (fun ix => !ix.1.rd_index.indisprimary && ix.2.ii_ReadyForInserts)).map
        (fun ix => Call.index_insert ix.1 (env.FormIndexDatum ix.2 tup).1
          (env.FormIndexDatum ix.2 tup).2 (TupleRef.k2pgctid tup.t_k2pgctid) heap
          (if ix.1.rd_index.indisunique then IndexUniqueCheck.UNIQUE_CHECK_YES
           else IndexUniqueCheck.UNIQUE_CHECK_NO)) := by
  induction ixs with
  | nil => simp [CatalogIndexInsert_loop]
  | cons x xs ih =>
    have hx : env.IsK2PgRelation x.1 = true := hrem x (List.mem_cons_self _ _)
    have hxs := ih (fun ix hix => hrem ix (List.mem_cons_of_mem _ hix))
    cases hp : x.1.rd_index.indisprimary <;> cases hrdy : x.2.ii_ReadyForInserts <;>
      simp [CatalogIndexInsert_loop, CatalogIndexInsert_iter, hk, hx, hxs, hp, hrdy]

/-- In a sequence made of calls that are no inserts, then one call that is
neither insert nor delete, then calls that are no deletes, every delete stands
before every insert. -/
theorem deletes_precede_inserts (D I : List Call) (c : Call)
    (hD : ∀ x ∈ D, x.isInsert = false) (hc : c.isInsert = false) (hc2 : c.isDelete = false)
    (hI : ∀ x ∈ I, x.isDelete = false) :
    ∀ (i j : Nat) (a b : Call), (D ++ [c] ++ I)[i]? = some a → (D ++ [c] ++ I)[j]? = some b →
      a.isInsert = true → b.isDelete = true → j < i := by
  intro i j a b hi hj ha hb
  rw [List.append_assoc] at hi hj
  have h1 : D.length < i := by
    by_contra hlt
    push_neg at hlt
    rcases Nat.lt_or_eq_of_le hlt with h | h
    · rw [List.getElem?_append_left h] at hi
      have := hD a (List.getElem?_mem hi)
      simp [this] at ha
    · rw [List.getElem?_append_right (Nat.le_of_eq h.symm)] at hi
      simp [h] at hi
      subst hi
      simp [hc] at ha
  have h2 : j < D.length := by
    by_contra hge
    push_neg at hge
    rw [List.getElem?_append_right hge] at hj
    rcases Nat.eq_or_lt_of_le hge with h | h
    · simp [h] at hj
      subst hj
      simp [hc2] at hb
    · obtain ⟨k, hk⟩ : ∃ k, j - D.length = k + 1 := ⟨j - D.length - 1, by omega⟩
      rw [hk] at hj
      simp at hj
      have := hI b (List.getElem?_mem hj)
      simp [this] at hb
  omega

/-- C4.  For a remote-backed table with secondary indexes (remote-backed mode
on, `K2PgRelHasSecondaryIndices`, every opened index remote-backed) and a new
row with a non-null logical record identifier, `CatalogUpdateIndexes` makes
its calls in this order: first one by-back-reference delete
(`K2PgDeleteIndexRowsByBaseK2Pgctid` with the row's identifier) per
non-primary, ready index, then the row-cache update `K2PgSetSysCacheTuple`,
then the `index_insert` calls formed from the new row image, one per
non-primary, ready index (none when the row is flagged heap-only).  Every
delete call stands before every insert call. -/
theorem update_deletes_then_cache_then_inserts (env : K2PgEnv) (heapRel : RelationData)
    (tup : HeapTupleData)
    (hk : env.IsK2PgEnabled = true)
    (hidx : env.K2PgRelHasSecondaryIndices heapRel = true)
    (hctid : tup.t_k2pgctid ≠ 0)
    (hrem : ∀ ix ∈ env.ExecOpenIndices heapRel, env.IsK2PgRelation ix.1 = true) :
    CatalogUpdateIndexes env heapRel tup =
      ((env.ExecOpenIndices heapRel).filter
          (fun ix => !ix.1.rd_index.indisprimary && ix.2.ii_ReadyForInserts)).map
        (fun ix => Call.K2PgDeleteIndexRowsByBaseK2Pgctid ix.1 (TupleRef.k2pgctid tup.t_k2pgctid)) ++
      [Call.K2PgSetSysCacheTuple heapRel tup] ++
      (if tup.heap_only then []
       else ((env.ExecOpenIndices heapRel).filter
          (fun ix => !ix.1.rd_index.indisprimary && ix.2.ii_ReadyForInserts)).map
        (fun ix => Call.index_insert ix.1 (env.FormIndexDatum ix.2 tup).1
          (env.FormIndexDatum ix.2 tup).2 (TupleRef.k2pgctid tup.t_k2pgctid) heapRel
          (if ix.1.rd_index.indisunique then IndexUniqueCheck.UNIQUE_CHECK_YES
           else IndexUniqueCheck.UNIQUE_CHECK_NO))) ∧
    ∀ (i j : Nat) (a b : Call),
      (CatalogUpdateIndexes env heapRel tup)[i]? = some a →
      (CatalogUpdateIndexes env heapRel tup)[j]? = some b →
      a.isInsert = true → b.isDelete = true → j < i := by
  have hshape : CatalogUpdateIndexes env heapRel tup =
      ((env.ExecOpenIndices heapRel).filter
          (fun ix => !ix.1.rd_index.indisprimary && ix.2.ii_ReadyForInserts)).map
        (fun ix => Call.K2PgDeleteIndexRowsByBaseK2Pgctid ix.1 (TupleRef.k2pgctid tup.t_k2pgctid)) ++
      [Call.K2PgSetSysCacheTuple heapRel tup] ++
      (if tup.heap_only then []
       else ((env.ExecOpenIndices heapRel).filter
          (fun ix => !ix.1.rd_index.indisprimary && ix.2.ii_ReadyForInserts)).map
        (fun ix => Call.index_insert ix.1 (env.FormIndexDatum ix.2 tup).1
          (env.FormIndexDatum ix.2 tup).2 (TupleRef.k2pgctid tup.t_k2pgctid) heapRel
          (if ix.1.rd_index.indisunique then IndexUniqueCheck.UNIQUE_CHECK_YES
           else IndexUniqueCheck.UNIQUE_CHECK_NO))) := by
    unfold CatalogUpdateIndexes
    simp only [hk, hidx, if_true, CatalogIndexDelete_eq_loop, CatalogIndexInsert_eq_loop,
      CatalogOpenIndexes]
    rw [CatalogIndexDelete_loop_remote env hk tup _ hrem,
      CatalogIndexInsert_loop_remote env hk heapRel tup _ hrem]
    simp [hctid]
  refine ⟨hshape, ?_⟩
  rw [hshape]
  apply deletes_precede_inserts
  · intro x hx
    simp only [List.mem_map] at hx
    obtain ⟨ix, -, rfl⟩ := hx
    rfl
  · rfl
  · rfl
  · intro x hx
    split at hx
    · simp at hx
    · simp only [List.mem_map] at hx
      obtain ⟨ix, -, rfl⟩ := hx
      rfl

/-- C4, at a concrete input: the catalog table with a primary-key index and
two secondary indexes, updated with a row that carries identifier 4096. -/
theorem update_deletes_then_cache_then_inserts_witness :
    exRemoteEnv.IsK2PgEnabled = true ∧
    exRemoteEnv.K2PgRelHasSecondaryIndices exHeap = true ∧
    exTuple.t_k2pgctid ≠ 0 ∧
    CatalogUpdateIndexes exRemoteEnv exHeap exTuple =
      [Call.K2PgDeleteIndexRowsByBaseK2Pgctid exUnique (TupleRef.k2pgctid 4096),
       Call.K2PgDeleteIndexRowsByBaseK2Pgctid exPlain (TupleRef.k2pgctid 4096),
       Call.K2PgSetSysCacheTuple exHeap exTuple,
       Call.index_insert exUnique [11] [false] (TupleRef.k2pgctid 4096) exHeap
          IndexUniqueCheck.UNIQUE_CHECK_YES,
       Call.index_insert exPlain [5] [false] (TupleRef.k2pgctid 4096) exHeap
          IndexUniqueCheck.UNIQUE_CHECK_NO] :=
  ⟨rfl, rfl, by decide,
    (update_deletes_then_cache_then_inserts exRemoteEnv exHeap exTuple rfl rfl (by decide)
      (fun _ _ => rfl)).1.trans (by decide)⟩

/-! ## Effect of the calls on one remote index -/

theorem applyRemoteAll_append (store : List IndexEntry) (a b : List Call) :
    applyRemoteAll store (a ++ b) = applyRemoteAll (applyRemoteAll store a) b := by
  induction a generalizing store with
  | nil => simp [applyRemoteAll]
  | cons x xs ih => simp [applyRemoteAll, ih]

/-- A call made for index `oid` acts on the entries of that index as it acts
on the whole store. -/
theorem indexContents_applyRemote_on (oid : Oid) (store : List IndexEntry) (q : Call)
    (h : q.onIndex oid = true) :
    indexContents oid (applyRemote store q) = applyRemote (indexContents oid store) q := by
  cases q <;> simp [Call.onIndex, Call.target] at h <;>
    simp [applyRemote, indexContents, List.filter_filter, h, Bool.and_comm]

/-- A call that is not made for index `oid` leaves the entries of that index alone. -/
theorem indexContents_applyRemote_off (oid : Oid) (store : List IndexEntry) (q : Call)
    (h : q.onIndex oid = false) :
    indexContents oid (applyRemote store q) = indexContents oid store := by
  cases q with
  | K2PgDeleteIndexRowsByBaseK2Pgctid r t =>
    simp [Call.onIndex, Call.target] at h
    simp only [applyRemote, indexContents, List.filter_filter]
    apply List.filter_congr
    intro e _
    by_cases he : e.index = oid
    · have : e.index ≠ r.rd_id := fun h2 => h (h2.symm.trans he)
      simp [this]
    · simp [he]
  | K2PgExecuteInsertIndex r v n t =>
    simp [Call.onIndex, Call.target] at h
    simp [applyRemote, indexContents, h]
  | K2PgExecuteDeleteIndex r v n t =>
    simp [Call.onIndex, Call.target] at h
    simp only [applyRemote, indexContents, List.filter_filter]
    apply List.filter_congr
    intro e _
    by_cases he : e.index = oid
    · have : e ≠ { index := r.rd_id, values := v, isnull := n, backref := t } := by
        intro h2
        apply h
        rw [← he, h2]
      simp [he, this]
    · simp [he]
  | _ => simp [applyRemote]

/-- The entries of index `oid` after a run of remote calls depend only on the
calls made for that index. -/
theorem indexContents_applyRemoteAll (oid : Oid) (store : List IndexEntry) (qs : List Call) :
    indexContents oid (applyRemoteAll store qs) =
      applyRemoteAll (indexContents oid store) (qs.filter (Call.onIndex oid)) := by
  induction qs generalizing store with
  | nil => simp [applyRemoteAll]
  | cons q qs ih =>
    cases h : q.onIndex oid
    · simp [applyRemoteAll, List.filter_cons, h, ih, indexContents_applyRemote_off oid store q h]
    · simp [applyRemoteAll, List.filter_cons, h, ih, indexContents_applyRemote_on oid store q h]

/-- The delete loop over indexes other than `oid` makes no remote call for `oid`. -/
theorem remote_delete_loop_foreign (env : K2PgEnv) (tup : HeapTupleData) (oid : Oid)
    (ixs : List (RelationData × IndexInfo)) (h : ∀ ix ∈ ixs, ix.1.rd_id ≠ oid) :
    (remoteIndexCalls env (CatalogIndexDelete_loop env tup ixs)).filter (Call.onIndex oid) = [] := by
  induction ixs with
  | nil => simp [CatalogIndexDelete_loop, remoteIndexCalls]
  | cons x xs ih =>
    have hx : x.1.rd_id ≠ oid := h x (List.mem_cons_self _ _)
    have hxs := ih (fun ix hix => h ix (List.mem_cons_of_mem _ hix))
    simp only [CatalogIndexDelete_loop, remoteIndexCalls_append, List.filter_append, hxs,
      List.append_nil]
    unfold CatalogIndexDelete_iter
    cases env.IsK2PgEnabled <;> cases x.1.rd_index.indisprimary <;>
      cases x.2.ii_ReadyForInserts <;> cases hr : env.IsK2PgRelation x.1 <;>
      simp [remoteIndexCalls, amDispatch, k2indelete, Call.onIndex, Call.target, hx, hr]

/-- The insert loop over indexes other than `oid` makes no remote call for `oid`. -/
theorem remote_insert_loop_foreign (env : K2PgEnv) (heap : RelationData) (tup : HeapTupleData)
    (oid : Oid) (ixs : List (RelationData × IndexInfo)) (h : ∀ ix ∈ ixs, ix.1.rd_id ≠ oid) :
    (remoteIndexCalls env (CatalogIndexInsert_loop env heap tup ixs)).filter (Call.onIndex oid) =
      [] := by
  induction ixs with
  | nil => simp [CatalogIndexInsert_loop, remoteIndexCalls]
  | cons x xs ih =>
    have hx : x.1.rd_id ≠ oid := h x (List.mem_cons_self _ _)
    have hxs := ih (fun ix hix => h ix (List.mem_cons_of_mem _ hix))
    simp only [CatalogIndexInsert_loop, remoteIndexCalls_append, List.filter_append, hxs,
      List.append_nil]
    unfold CatalogIndexInsert_iter
    cases env.IsK2PgEnabled <;> cases hp : x.1.rd_index.indisprimary <;>
      cases x.2.ii_ReadyForInserts <;> cases hr : env.IsK2PgRelation x.1 <;>
      simp [remoteIndexCalls, amDispatch, k2ininsert, Call.onIndex, Call.target, hx, hr, hp]

/-- The remote calls of the delete loop for a ready, non-primary, remote-backed
index that occurs once in the set: one delete of all entries of the row. -/
theorem remote_delete_loop_on (env : K2PgEnv) (tup : HeapTupleData) (rel : RelationData)
    (info : IndexInfo) (pre post : List (RelationData × IndexInfo))
    (hother : ∀ ix ∈ pre ++ post, ix.1.rd_id ≠ rel.rd_id)
    (hprimary : rel.rd_index.indisprimary = false)
    (hready : info.ii_ReadyForInserts = true)
    (hremote : env.IsK2PgRelation rel = true) :
    (remoteIndexCalls env (CatalogIndexDelete_loop env tup (pre ++ (rel, info) :: post))).filter
        (Call.onIndex rel.rd_id) =
      [Call.K2PgDeleteIndexRowsByBaseK2Pgctid rel (TupleRef.k2pgctid tup.t_k2pgctid)] := by
  have hpre := remote_delete_loop_foreign env tup rel.rd_id pre
    (fun ix hix => hother ix (List.mem_append_left _ hix))
  have hpost := remote_delete_loop_foreign env tup rel.rd_id post
    (fun ix hix => hother ix (List.mem_append_right _ hix))
  simp [CatalogIndexDelete_loop_append, CatalogIndexDelete_loop, remoteIndexCalls_append,
    List.filter_append, hpre, hpost, CatalogIndexDelete_iter, hprimary, hready, hremote,
    remoteIndexCalls, amDispatch, Call.onIndex, Call.target]

/-- The remote calls of the insert loop for a ready, non-primary, remote-backed
index that occurs once in the set: one insert of the entry of the row. -/
theorem remote_insert_loop_on (env : K2PgEnv) (heap : RelationData) (tup : HeapTupleData)
    (rel : RelationData) (info : IndexInfo) (pre post : List (RelationData × IndexInfo))
    (hother : ∀ ix ∈ pre ++ post, ix.1.rd_id ≠ rel.rd_id)
    (hprimary : rel.rd_index.indisprimary = false)
    (hready : info.ii_ReadyForInserts = true)
    (hremote : env.IsK2PgRelation rel = true) :
    (remoteIndexCalls env
        (CatalogIndexInsert_loop env heap tup (pre ++ (rel, info) :: post))).filter
        (Call.onIndex rel.rd_id) =
      [Call.K2PgExecuteInsertIndex rel (env.FormIndexDatum info tup).1
        (env.FormIndexDatum info tup).2 (TupleRef.k2pgctid tup.t_k2pgctid)] := by
  have hpre := remote_insert_loop_foreign env heap tup rel.rd_id pre
    (fun ix hix => hother ix (List.mem_append_left _ hix))
  have hpost := remote_insert_loop_foreign env heap tup rel.rd_id post
    (fun ix hix => hother ix (List.mem_append_right _ hix))
  simp [CatalogIndexInsert_loop_append, CatalogIndexInsert_loop, remoteIndexCalls_append,
    List.filter_append, hpre, hpost, CatalogIndexInsert_iter, hprimary, hready, hremote,
    remoteIndexCalls, amDispatch, k2ininsert, Call.onIndex, Call.target]
/-- The entries of an index after `CatalogIndexInsert`, for a ready,
non-primary, remote-backed index that occurs once in the set and a row that is
not heap-only: the entry of the row is added. -/
theorem indexContents_CatalogIndexInsert (env : K2PgEnv) (heap rel : RelationData)
    (info : IndexInfo) (pre post : List (RelationData × IndexInfo)) (tup : HeapTupleData)
    (store : List IndexEntry)
    (hhot : tup.heap_only = false)
    (hother : ∀ ix ∈ pre ++ post, ix.1.rd_id ≠ rel.rd_id)
    (hprimary : rel.rd_index.indisprimary = false)
    (hready : info.ii_ReadyForInserts = true)
    (hremote : env.IsK2PgRelation rel = true) :
    indexContents rel.rd_id
        (runCalls env store (CatalogIndexInsert env ⟨heap, pre ++ (rel, info) :: post⟩ tup)) =
      indexContents rel.rd_id store ++
        [{ index := rel.rd_id, values := (env.FormIndexDatum info tup).1,
           isnull := (env.FormIndexDatum info tup).2,
           backref := TupleRef.k2pgctid tup.t_k2pgctid }] := by
  unfold runCalls
  rw [indexContents_applyRemoteAll, CatalogIndexInsert_eq_loop]
  simp only [hhot, Bool.false_eq_true, if_false]
  rw [remote_insert_loop_on env heap tup rel info pre post hother hprimary hready hremote]
  simp [applyRemoteAll, applyRemote]

/-- The entries of an index after `CatalogIndexDelete`, for a ready,
non-primary, remote-backed index that occurs once in the set: the entries of
the row are gone. -/
theorem indexContents_CatalogIndexDelete (env : K2PgEnv) (heap rel : RelationData)
    (info : IndexInfo) (pre post : List (RelationData × IndexInfo)) (tup : HeapTupleData)
    (store : List IndexEntry)
    (hother : ∀ ix ∈ pre ++ post, ix.1.rd_id ≠ rel.rd_id)
    (hprimary : rel.rd_index.indisprimary = false)
    (hready : info.ii_ReadyForInserts = true)
    (hremote : env.IsK2PgRelation rel = true) :
    indexContents rel.rd_id
        (runCalls env store (CatalogIndexDelete env ⟨heap, pre ++ (rel, info) :: post⟩ tup)) =
      (indexContents rel.rd_id store).filter
        (fun e => !decide (e.backref = TupleRef.k2pgctid tup.t_k2pgctid)) := by
  unfold runCalls
  rw [indexContents_applyRemoteAll, CatalogIndexDelete_eq_loop]
  simp only
  rw [remote_delete_loop_on env tup rel info pre post hother hprimary hready hremote]
  simp only [applyRemoteAll, applyRemote, indexContents, List.filter_filter]
  apply List.filter_congr
  intro e _
  by_cases h1 : e.index = rel.rd_id <;> by_cases h2 : e.backref = TupleRef.k2pgctid tup.t_k2pgctid <;>
    simp [h1, h2]

theorem runCalls_append (env : K2PgEnv) (store : List IndexEntry) (a b : List Call) :
    runCalls env store (a ++ b) = runCalls env (runCalls env store a) b := by
  simp [runCalls, remoteIndexCalls_append, applyRemoteAll_append]

/-! ## C5: an update replaces the entry of the row -/

/-- C5.  With the remote index modelled as a collection of (key values,
back-reference) entries: for a ready, non-primary, remote-backed index of a
table with secondary indexes in remote-backed mode, and a new row image with
identifier `r` (non-null, not a heap-only update), after
`CatalogUpdateIndexes` the entries that `r` owns in the index are exactly the
one entry under the key `B` of the new row image; no entry of `r` under any
other key `A` remains; the entries owned by other identifiers are unchanged. -/
theorem update_replaces_entry (env : K2PgEnv) (heapRel rel : RelationData)
    (info : IndexInfo) (pre post : List (RelationData × IndexInfo)) (tup : HeapTupleData)
    (store : List IndexEntry)
    (hk : env.IsK2PgEnabled = true)
    (hidx : env.K2PgRelHasSecondaryIndices heapRel = true)
    (hctid : tup.t_k2pgctid ≠ 0)
    (hhot : tup.heap_only = false)
    (hset : env.ExecOpenIndices heapRel = pre ++ (rel, info) :: post)
    (hother : ∀ ix ∈ pre ++ post, ix.1.rd_id ≠ rel.rd_id)
    (hprimary : rel.rd_index.indisprimary = false)
    (hready : info.ii_ReadyForInserts = true)
    (hremote : env.IsK2PgRelation rel = true) :
    ownedBy (TupleRef.k2pgctid tup.t_k2pgctid)
        (indexContents rel.rd_id (runCalls env store (CatalogUpdateIndexes env heapRel tup))) =
      [{ index := rel.rd_id, values := (env.FormIndexDatum info tup).1,
         isnull := (env.FormIndexDatum info tup).2,
         backref := TupleRef.k2pgctid tup.t_k2pgctid }] ∧
    (∀ (A : List Datum) (N : List Bool), (A, N) ≠ env.FormIndexDatum info tup →
      ({ index := rel.rd_id, values := A, isnull := N,
         backref := TupleRef.k2pgctid tup.t_k2pgctid } : IndexEntry) ∉
        runCalls env store (CatalogUpdateIndexes env heapRel tup)) ∧
    notOwnedBy (TupleRef.k2pgctid tup.t_k2pgctid)
        (indexContents rel.rd_id (runCalls env store (CatalogUpdateIndexes env heapRel tup))) =
      notOwnedBy (TupleRef.k2pgctid tup.t_k2pgctid) (indexContents rel.rd_id store) := by
  have hcontents :
      indexContents rel.rd_id (runCalls env store (CatalogUpdateIndexes env heapRel tup)) =
        (indexContents rel.rd_id store).filter
            (fun e => !decide (e.backref = TupleRef.k2pgctid tup.t_k2pgctid)) ++
          [{ index := rel.rd_id, values := (env.FormIndexDatum info tup).1,
             isnull := (env.FormIndexDatum info tup).2,
             backref := TupleRef.k2pgctid tup.t_k2pgctid }] := by
    have htrace : CatalogUpdateIndexes env heapRel tup =
        CatalogIndexDelete env ⟨heapRel, pre ++ (rel, info) :: post⟩ tup ++
          ([Call.K2PgSetSysCacheTuple heapRel tup] ++
            CatalogIndexInsert env ⟨heapRel, pre ++ (rel, info) :: post⟩ tup) := by
      simp [CatalogUpdateIndexes, CatalogOpenIndexes, hk, hidx, hctid, hset]
    rw [htrace, runCalls_append, runCalls_append]
    rw [indexContents_CatalogIndexInsert env heapRel rel info pre post tup _ hhot hother hprimary
      hready hremote]
    have hcache : ∀ st, runCalls env st [Call.K2PgSetSysCacheTuple heapRel tup] = st := by
      intro st
      simp [runCalls, remoteIndexCalls, amDispatch, applyRemoteAll]
    rw [hcache, indexContents_CatalogIndexDelete env heapRel rel info pre post tup _ hother
      hprimary hready hremote]
  have howned : ownedBy (TupleRef.k2pgctid tup.t_k2pgctid)
        (indexContents rel.rd_id (runCalls env store (CatalogUpdateIndexes env heapRel tup))) =
      [{ index := rel.rd_id, values := (env.FormIndexDatum info tup).1,
         isnull := (env.FormIndexDatum info tup).2,
         backref := TupleRef.k2pgctid tup.t_k2pgctid }] := by
    rw [hcontents]
    simp [ownedBy, List.filter_append, List.filter_filter]
  refine ⟨howned, ?_, ?_⟩
  · intro A N hne hmem
    have h1 : IndexEntry.mk rel.rd_id A N (TupleRef.k2pgctid tup.t_k2pgctid) ∈
        ownedBy (TupleRef.k2pgctid tup.t_k2pgctid)
          (indexContents rel.rd_id (runCalls env store (CatalogUpdateIndexes env heapRel tup))) := by
      simp [ownedBy, indexContents, List.mem_filter, hmem]
    rw [howned] at h1
    simp at h1
    apply hne
    rw [h1.1, h1.2]
  · rw [hcontents]
    simp [notOwnedBy, List.filter_append, List.filter_filter]

/-- C5, at a concrete input: row 4096 had key 9 in index 3455 and is updated to
key 5; the entry of row 8192 stays. -/
theorem update_replaces_entry_witness :
    ownedBy (TupleRef.k2pgctid 4096)
        (indexContents 3455 (runCalls exRemoteEnv exStore (CatalogUpdateIndexes exRemoteEnv exHeap exTuple))) =
      [{ index := 3455, values := [5], isnull := [false], backref := TupleRef.k2pgctid 4096 }] ∧
    ({ index := 3455, values := [9], isnull := [false],
       backref := TupleRef.k2pgctid 4096 } : IndexEntry) ∉
      runCalls exRemoteEnv exStore (CatalogUpdateIndexes exRemoteEnv exHeap exTuple) ∧
    notOwnedBy (TupleRef.k2pgctid 4096)
        (indexContents 3455 (runCalls exRemoteEnv exStore (CatalogUpdateIndexes exRemoteEnv exHeap exTuple))) =
      [{ index := 3455, values := [5], isnull := [false], backref := TupleRef.k2pgctid 8192 }] :=
  have h := update_replaces_entry exRemoteEnv exHeap exPlain exInfoPlain
    [(exPrimary, exInfoPk), (exUnique, exInfoUnique)] [] exTuple exStore rfl rfl (by decide) rfl
    rfl (by decide) rfl rfl rfl
  ⟨h.1, h.2.1 [9] [false] (by decide), h.2.2.trans (by decide)⟩

/-! ## C6: heap-only rows -/

/-- For a row flagged heap-only `CatalogIndexInsert` makes no call, whatever
the index set; so with remote-backed mode off `CatalogUpdateIndexes` makes no
call either. -/
theorem heap_only_insert_makes_no_call (env : K2PgEnv) (indstate : ResultRelInfo)
    (heapRel : RelationData) (tup : HeapTupleData) (hhot : tup.heap_only = true) :
    CatalogIndexInsert env indstate tup = [] ∧
    (env.IsK2PgEnabled = false → CatalogUpdateIndexes env heapRel tup = []) := by
  have h : ∀ st, CatalogIndexInsert env st tup = [] := by
    intro st
    simp [CatalogIndexInsert, hhot]
  refine ⟨h indstate, fun hk => ?_⟩
  simp [CatalogUpdateIndexes, hk, h]

/-- C6, where the code departs from it: in remote-backed mode
`CatalogUpdateIndexes` on a heap-only row with a logical record identifier
still deletes all entries of the row from every ready secondary index, and
then inserts none; the entry of row 4096 in index 3455 is lost. -/
theorem heap_only_update_deletes_entries :
    exTupleHeapOnly.heap_only = true ∧
    CatalogUpdateIndexes exRemoteEnv exHeap exTupleHeapOnly =
      [Call.K2PgDeleteIndexRowsByBaseK2Pgctid exUnique (TupleRef.k2pgctid 4096),
       Call.K2PgDeleteIndexRowsByBaseK2Pgctid exPlain (TupleRef.k2pgctid 4096),
       Call.K2PgSetSysCacheTuple exHeap exTupleHeapOnly] ∧
    indexContents 3455 exStore =
      [{ index := 3455, values := [9], isnull := [false], backref := TupleRef.k2pgctid 4096 },
       { index := 3455, values := [5], isnull := [false], backref := TupleRef.k2pgctid 8192 }] ∧
    indexContents 3455
        (runCalls exRemoteEnv exStore (CatalogUpdateIndexes exRemoteEnv exHeap exTupleHeapOnly)) =
      [{ index := 3455, values := [5], isnull := [false], backref := TupleRef.k2pgctid 8192 }] := by
  refine ⟨rfl, ?_, ?_, ?_⟩ <;> decide

/-! ## C7: a row without logical record identifier -/

/-- C7 (as amended).  In remote-backed mode, for a table with secondary indexes
and a row whose logical record identifier is missing, `CatalogUpdateIndexes`
reports the warning, issues no delete, updates the row cache and then makes
the calls of `CatalogIndexInsert` for the row: its trace is the warning, the
cache update and the insert calls, and none of these is a delete. -/
theorem missing_ctid_skips_delete_only (env : K2PgEnv) (heapRel : RelationData)
    (tup : HeapTupleData)
    (hk : env.IsK2PgEnabled = true)
    (hidx : env.K2PgRelHasSecondaryIndices heapRel = true)
    (hctid : tup.t_k2pgctid = 0) :
    CatalogUpdateIndexes env heapRel tup =
      [Call.elog_WARNING_k2pgctid_missing heapRel, Call.K2PgSetSysCacheTuple heapRel tup] ++
        CatalogIndexInsert env (CatalogOpenIndexes env heapRel) tup ∧
    ∀ c ∈ CatalogUpdateIndexes env heapRel tup, c.isDelete = false := by
  have hshape : CatalogUpdateIndexes env heapRel tup =
      [Call.elog_WARNING_k2pgctid_missing heapRel, Call.K2PgSetSysCacheTuple heapRel tup] ++
        CatalogIndexInsert env (CatalogOpenIndexes env heapRel) tup := by
    simp [CatalogUpdateIndexes, hk, hidx, hctid]
  refine ⟨hshape, ?_⟩
  rw [hshape]
  intro c hc
  simp only [List.cons_append, List.nil_append, List.mem_cons] at hc
  rcases hc with rfl | rfl | hc
  · rfl
  · rfl
  · rw [CatalogIndexInsert_eq_loop] at hc
    split at hc
    · simp at hc
    · generalize (CatalogOpenIndexes env heapRel).ri_indexes = ixs at hc
      induction ixs with
      | nil => simp [CatalogIndexInsert_loop] at hc
      | cons x xs ih =>
        simp only [CatalogIndexInsert_loop, List.mem_append] at hc
        rcases hc with hc | hc
        · unfold CatalogIndexInsert_iter at hc
          split at hc
          · simp at hc
          · split at hc
            · simp at hc
            · simp only [List.mem_singleton] at hc
              subst hc
              rfl
        · exact ih hc

/-- C7, at a concrete input: the row without identifier. -/
theorem missing_ctid_skips_delete_only_witness :
    exRemoteEnv.IsK2PgEnabled = true ∧
    exRemoteEnv.K2PgRelHasSecondaryIndices exHeap = true ∧
    exTupleNoCtid.t_k2pgctid = 0 ∧
    CatalogUpdateIndexes exRemoteEnv exHeap exTupleNoCtid =
      [Call.elog_WARNING_k2pgctid_missing exHeap, Call.K2PgSetSysCacheTuple exHeap exTupleNoCtid] ++
        CatalogIndexInsert exRemoteEnv (CatalogOpenIndexes exRemoteEnv exHeap) exTupleNoCtid :=
  ⟨rfl, rfl, rfl, (missing_ctid_skips_delete_only exRemoteEnv exHeap exTupleNoCtid rfl rfl rfl).1⟩

/-- C7 as stated fails: for a row without logical record identifier
`CatalogUpdateIndexes` does issue inserts; the remote calls it amounts to are
one `K2PgExecuteInsertIndex` per ready secondary index, each with a null
back-reference. -/
theorem missing_ctid_still_inserts :
    exTupleNoCtid.t_k2pgctid = 0 ∧
    CatalogUpdateIndexes exRemoteEnv exHeap exTupleNoCtid =
      [Call.elog_WARNING_k2pgctid_missing exHeap,
       Call.K2PgSetSysCacheTuple exHeap exTupleNoCtid,
       Call.index_insert exUnique [11] [false] (TupleRef.k2pgctid 0) exHeap
          IndexUniqueCheck.UNIQUE_CHECK_YES,
       Call.index_insert exPlain [5] [false] (TupleRef.k2pgctid 0) exHeap
          IndexUniqueCheck.UNIQUE_CHECK_NO] ∧
    remoteIndexCalls exRemoteEnv (CatalogUpdateIndexes exRemoteEnv exHeap exTupleNoCtid) =
      [Call.K2PgExecuteInsertIndex exUnique [11] [false] (TupleRef.k2pgctid 0),
       Call.K2PgExecuteInsertIndex exPlain [5] [false] (TupleRef.k2pgctid 0)] := by
  refine ⟨rfl, ?_, ?_⟩ <;> decide

/-! ## C8: insert, then delete -/

/-- C8.  With the remote index modelled as a collection of (key values,
back-reference) entries: for a ready, non-primary, remote-backed index of a
remote-backed table with secondary indexes that holds no entry owned by
identifier `r`, `CatalogIndexInsert` for a (not heap-only) row with identifier
`r` adds exactly the one entry (key of the row, `r`), and `CatalogTupleDelete`
of the same row then restores the prior contents of the index, with no entry
owned by `r`. -/
theorem insert_then_delete_restores (env : K2PgEnv) (heapRel rel : RelationData)
    (info : IndexInfo) (pre post : List (RelationData × IndexInfo)) (tup : HeapTupleData)
    (store : List IndexEntry)
    (hheap : env.IsK2PgRelation heapRel = true)
    (hidx : env.K2PgRelHasSecondaryIndices heapRel = true)
    (hhot : tup.heap_only = false)
    (hset : env.ExecOpenIndices heapRel = pre ++ (rel, info) :: post)
    (hother : ∀ ix ∈ pre ++ post, ix.1.rd_id ≠ rel.rd_id)
    (hprimary : rel.rd_index.indisprimary = false)
    (hready : info.ii_ReadyForInserts = true)
    (hremote : env.IsK2PgRelation rel = true)
    (hfresh : ownedBy (TupleRef.k2pgctid tup.t_k2pgctid) (indexContents rel.rd_id store) = []) :
    indexContents rel.rd_id
        (runCalls env store (CatalogIndexInsert env (CatalogOpenIndexes env heapRel) tup)) =
      indexContents rel.rd_id store ++
        [{ index := rel.rd_id, values := (env.FormIndexDatum info tup).1,
           isnull := (env.FormIndexDatum info tup).2,
           backref := TupleRef.k2pgctid tup.t_k2pgctid }] ∧
    ownedBy (TupleRef.k2pgctid tup.t_k2pgctid)
        (indexContents rel.rd_id
          (runCalls env store (CatalogIndexInsert env (CatalogOpenIndexes env heapRel) tup))) =
      [{ index := rel.rd_id, values := (env.FormIndexDatum info tup).1,
         isnull := (env.FormIndexDatum info tup).2,
         backref := TupleRef.k2pgctid tup.t_k2pgctid }] ∧
    indexContents rel.rd_id
        (runCalls env
          (runCalls env store (CatalogIndexInsert env (CatalogOpenIndexes env heapRel) tup))
          (CatalogTupleDelete env heapRel tup)) =
      indexContents rel.rd_id store ∧
    ownedBy (TupleRef.k2pgctid tup.t_k2pgctid)
        (indexContents rel.rd_id
          (runCalls env
            (runCalls env store (CatalogIndexInsert env (CatalogOpenIndexes env heapRel) tup))
            (CatalogTupleDelete env heapRel tup))) = [] := by
  have hopen : CatalogOpenIndexes env heapRel = ⟨heapRel, pre ++ (rel, info) :: post⟩ := by
    simp [CatalogOpenIndexes, hset]
  have hins := indexContents_CatalogIndexInsert env heapRel rel info pre post tup store hhot
    hother hprimary hready hremote
  have hnone : ∀ e ∈ indexContents rel.rd_id store,
      e.backref ≠ TupleRef.k2pgctid tup.t_k2pgctid := by
    intro e he hb
    have : e ∈ ownedBy (TupleRef.k2pgctid tup.t_k2pgctid) (indexContents rel.rd_id store) := by
      simp [ownedBy, List.mem_filter, he, hb]
    rw [hfresh] at this
    simp at this
  have hdel : indexContents rel.rd_id
        (runCalls env
          (runCalls env store (CatalogIndexInsert env (CatalogOpenIndexes env heapRel) tup))
          (CatalogTupleDelete env heapRel tup)) =
      indexContents rel.rd_id store := by
    have htrace : CatalogTupleDelete env heapRel tup =
        [Call.K2PgDeleteSysCatalogTuple heapRel tup] ++
          CatalogIndexDelete env ⟨heapRel, pre ++ (rel, info) :: post⟩ tup := by
      simp [CatalogTupleDelete, hheap, hidx, hopen]
    have hbase : ∀ st, runCalls env st [Call.K2PgDeleteSysCatalogTuple heapRel tup] = st := by
      intro st
      simp [runCalls, remoteIndexCalls, amDispatch, applyRemoteAll]
    rw [htrace, runCalls_append, hbase,
      indexContents_CatalogIndexDelete env heapRel rel info pre post tup _ hother hprimary
        hready hremote, hopen, hins]
    simp only [List.filter_append]
    have h1 : (indexContents rel.rd_id store).filter
        (fun e => !decide (e.backref = TupleRef.k2pgctid tup.t_k2pgctid)) =
        indexContents rel.rd_id store := by
      rw [List.filter_eq_self]
      intro e he
      simp [hnone e he]
    rw [h1]
    simp
  refine ⟨?_, ?_, hdel, ?_⟩
  · rw [hopen]; exact hins
  · rw [hopen, hins]
    simp only [ownedBy, List.filter_append] at hfresh ⊢
    rw [hfresh]
    simp
  · rw [hdel]; exact hfresh

/-- C8, at a concrete input: row 4096 (key 5) is inserted into index 3455,
which holds an entry of row 8192 only, and deleted again. -/
theorem insert_then_delete_restores_witness :
    ownedBy (TupleRef.k2pgctid 4096) (indexContents 3455 exStoreOther) = [] ∧
    indexContents 3455
        (runCalls exRemoteEnv exStoreOther
          (CatalogIndexInsert exRemoteEnv (CatalogOpenIndexes exRemoteEnv exHeap) exTuple)) =
      [{ index := 3455, values := [5], isnull := [false], backref := TupleRef.k2pgctid 8192 },
       { index := 3455, values := [5], isnull := [false], backref := TupleRef.k2pgctid 4096 }] ∧
    indexContents 3455
        (runCalls exRemoteEnv
          (runCalls exRemoteEnv exStoreOther
            (CatalogIndexInsert exRemoteEnv (CatalogOpenIndexes exRemoteEnv exHeap) exTuple))
          (CatalogTupleDelete exRemoteEnv exHeap exTuple)) =
      [{ index := 3455, values := [5], isnull := [false], backref := TupleRef.k2pgctid 8192 }] :=
  have h := insert_then_delete_restores exRemoteEnv exHeap exPlain exInfoPlain
    [(exPrimary, exInfoPk), (exUnique, exInfoUnique)] [] exTuple exStoreOther rfl rfl rfl rfl
    (by decide) rfl rfl rfl (by decide)
  ⟨by decide, h.1.trans (by decide), h.2.2.1.trans (by decide)⟩

/-! ## C9, C10: index build -/

/-- The callback invocations of a build scan, from any build state: the remote
inserts (none for a primary index) and the advanced row counter. -/
theorem IndexBuildHeapScan_rows_k2inbuildCallback (index : RelationData) (rows : List ScanRow)
    (st : K2PgBuildState) :
    IndexBuildHeapScan_rows index k2inbuildCallback rows st =
      ((if st.isprimary then []
        else rows.map (fun row => Call.K2PgExecuteInsertIndex index row.values row.isnull
          (TupleRef.k2pgctid row.heapTuple.t_k2pgctid))),
       { st with index_tuples := st.index_tuples + rows.length }) := by
  induction rows generalizing st with
  | nil =>
    obtain ⟨isprimary, index_tuples, is_backfill⟩ := st
    cases isprimary <;> simp [IndexBuildHeapScan_rows]
  | cons row rest ih =>
    obtain ⟨isprimary, index_tuples, is_backfill⟩ := st
    simp only [IndexBuildHeapScan_rows, ih]
    cases isprimary <;> simp [k2inbuildCallback, Nat.add_assoc, Nat.add_comm 1]

/-- C9.  For every sequence of rows that the table scan delivers to the build
callback, `k2inbuild` on a non-primary index issues exactly one
`K2PgExecuteInsertIndex` per delivered row, in scan order, carrying the key
values, null flags and logical record identifier of that row as supplied; on a
primary index it issues no remote insert. -/
theorem build_inserts_one_entry_per_row (scan : HeapScan) (heap index : RelationData)
    (indexInfo : IndexInfo) :
    (k2inbuild scan heap index indexInfo).1 =
      if index.rd_index.indisprimary then []
      else scan.rows.map (fun row => Call.K2PgExecuteInsertIndex index row.values row.isnull
        (TupleRef.k2pgctid row.heapTuple.t_k2pgctid)) := by
  unfold k2inbuild IndexBuildHeapScan
  simp only []
  rw [IndexBuildHeapScan_rows_k2inbuildCallback]

/-- C10.  `k2inbuild` returns `heap_tuples` equal to the row count reported by
the table scan and `index_tuples` equal to the number of rows the callback
visited: the callback adds one to the counter on every visit, for a primary
index as for any other, and the counter starts at 0; the number of remote
inserts issued is 0 for a primary index and the number of visited rows
otherwise. -/
theorem build_counters (scan : HeapScan) (heap index : RelationData) (indexInfo : IndexInfo) :
    (∀ (tup : HeapTupleData) (values : List Datum) (isnull : List Bool) (alive : Bool)
        (st : K2PgBuildState),
      (k2inbuildCallback index tup values isnull alive st).2.index_tuples = st.index_tuples + 1) ∧
    (k2inbuild scan heap index indexInfo).2.heap_tuples = scan.reltuples ∧
    (k2inbuild scan heap index indexInfo).2.index_tuples = scan.rows.length ∧
    (k2inbuild scan heap index indexInfo).1.length =
      if index.rd_index.indisprimary then 0 else scan.rows.length := by
  refine ⟨?_, ?_, ?_, ?_⟩
  · intro tup values isnull alive st
    simp [k2inbuildCallback]
  · simp [k2inbuild, IndexBuildHeapScan]
  · simp [k2inbuild, IndexBuildHeapScan, IndexBuildHeapScan_rows_k2inbuildCallback]
  · cases h : index.rd_index.indisprimary <;>
      simp [k2inbuild, IndexBuildHeapScan, IndexBuildHeapScan_rows_k2inbuildCallback, h]

/-! ## C11: rebinding a cursor -/

/-- `k2inrescan` on a cursor that holds no remote query only begins one. -/
theorem k2inrescan_fresh (env : CamEnv) (w : CamWorld) (scan : IndexScanDescData)
    (a : RescanArgs) (h : scan.camScan = none) :
    (k2inrescan env w scan a.scankey a.nscankeys a.orderbys a.norderbys).2 =
      { w with
        queries := w.queries + 1
        calls := w.calls ++ [ScanCall.camBeginScan scan.heapRelation scan.indexRelation
          scan.xs_want_itup a.nscankeys a.scankey w.queries] } ∧
    ∃ d, (k2inrescan env w scan a.scankey a.nscankeys a.orderbys a.norderbys).1.camScan = some d ∧
      d.query = w.queries := by
  simp [k2inrescan, h, camBeginScan]

/-- `k2inrescan` on a cursor that holds a remote query ends it, then begins the
new one. -/
theorem k2inrescan_holding (env : CamEnv) (w : CamWorld) (scan : IndexScanDescData)
    (a : RescanArgs) (d : CamScanDescData) (h : scan.camScan = some d) :
    (k2inrescan env w scan a.scankey a.nscankeys a.orderbys a.norderbys).2 =
      { w with
        queries := w.queries + 1
        calls := w.calls ++ [ScanCall.camEndScan (some d),
          ScanCall.camBeginScan scan.heapRelation scan.indexRelation
            scan.xs_want_itup a.nscankeys a.scankey w.queries] } ∧
    ∃ d2, (k2inrescan env w scan a.scankey a.nscankeys a.orderbys a.norderbys).1.camScan = some d2 ∧
      d2.query = w.queries := by
  simp [k2inrescan, h, camBeginScan, k2inendscan, camEndScan, CamWorld.Assert]

/-- A run of rebinds on a cursor that holds the remote query `d`: each rebind
ends one query and begins one, and the last query begun is the only one left. -/
theorem rescanAll_holding (env : CamEnv) (binds : List RescanArgs) :
    ∀ (s : IndexScanDescData × CamWorld) (d : CamScanDescData), s.1.camScan = some d →
      ∃ tr d2, (rescanAll env s binds).2.calls = s.2.calls ++ tr ∧
        (rescanAll env s binds).2.assertsHold = s.2.assertsHold ∧
        (rescanAll env s binds).2.queries = s.2.queries + binds.length ∧
        tr.countP ScanCall.isBegin = binds.length ∧
        tr.countP ScanCall.isEnd = binds.length ∧
        (rescanAll env s binds).1.camScan = some d2 ∧
        liveQueries [d.query] tr = [d2.query] ∧
        (binds ≠ [] → d2.query = s.2.queries + binds.length - 1) := by
  induction binds with
  | nil =>
    intro s d h
    exact ⟨[], d, by simp [rescanAll], by simp [rescanAll], by simp [rescanAll], rfl, rfl,
      by simp [rescanAll, h], rfl, by simp⟩
  | cons a rest ih =>
    intro s d h
    obtain ⟨hw, d1, hd1, hq1⟩ := k2inrescan_holding env s.2 s.1 a d h
    obtain ⟨tr, d2, h1, h2, h3, h4, h5, h6, h7, h8⟩ :=
      ih (k2inrescan env s.2 s.1 a.scankey a.nscankeys a.orderbys a.norderbys) d1 hd1
    refine ⟨[ScanCall.camEndScan (some d),
      ScanCall.camBeginScan s.1.heapRelation s.1.indexRelation s.1.xs_want_itup a.nscankeys
        a.scankey s.2.queries] ++ tr, d2, ?_, ?_, ?_, ?_, ?_, ?_, ?_, ?_⟩
    · simp only [rescanAll, h1, hw, List.append_assoc]
    · simp only [rescanAll, h2, hw]
    · simp only [rescanAll, h3, hw, List.length_cons]; omega
    · simp [List.countP_cons, ScanCall.isBegin, h4]
    · simp [List.countP_cons, ScanCall.isEnd, h5]
    · simp only [rescanAll, h6]
    · simp [liveQueries, hq1] at h7 ⊢
      exact h7
    · intro _
      cases rest with
      | nil =>
        simp [rescanAll, hd1] at h6
        simp [← h6, hq1]
      | cons b rest2 =>
        have := h8 (by simp)
        rw [this, hw]
        simp only [List.length_cons]
        omega

/-- C11.  Rebinding never leaks a remote query.  `k2inrescan` on a cursor that
holds a remote query makes exactly the calls `camEndScan` on that query and
then `camBeginScan`; on a freshly opened cursor it makes the call
`camBeginScan` alone.  After `k2inbeginscan` followed by `n >= 1` calls of
`k2inrescan`, exactly `n` remote queries were begun and `n - 1` ended, the
cursor references the query begun last, and that query is the only one begun
and not ended. -/
theorem rebinding_never_leaks (env : CamEnv) (w : CamWorld) (rel : RelationData)
    (nkeys norderbys : Int) (a : RescanArgs) (rest : List RescanArgs) :
    (∀ (w1 : CamWorld) (scan : IndexScanDescData) (d : CamScanDescData) (b : RescanArgs),
      scan.camScan = some d →
      (k2inrescan env w1 scan b.scankey b.nscankeys b.orderbys b.norderbys).2.calls =
        w1.calls ++ [ScanCall.camEndScan (some d),
          ScanCall.camBeginScan scan.heapRelation scan.indexRelation scan.xs_want_itup
            b.nscankeys b.scankey w1.queries]) ∧
    (k2inrescan env (k2inbeginscan env w rel nkeys norderbys).2
        (k2inbeginscan env w rel nkeys norderbys).1
        a.scankey a.nscankeys a.orderbys a.norderbys).2.calls =
      w.calls ++ [ScanCall.camBeginScan (k2inbeginscan env w rel nkeys norderbys).1.heapRelation
        (k2inbeginscan env w rel nkeys norderbys).1.indexRelation
        (k2inbeginscan env w rel nkeys norderbys).1.xs_want_itup a.nscankeys a.scankey
        w.queries] ∧
    ∃ (tr : List ScanCall) (d : CamScanDescData),
      (rescanAll env (k2inbeginscan env w rel nkeys norderbys) (a :: rest)).2.calls =
        w.calls ++ tr ∧
      tr.countP ScanCall.isBegin = (a :: rest).length ∧
      tr.countP ScanCall.isEnd = (a :: rest).length - 1 ∧
      (rescanAll env (k2inbeginscan env w rel nkeys norderbys) (a :: rest)).1.camScan = some d ∧
      d.query = w.queries + (a :: rest).length - 1 ∧
      liveQueries [] tr = [d.query] := by
  have hopen : (k2inbeginscan env w rel nkeys norderbys).1.camScan = none := by
    simp [k2inbeginscan]
  have hopenw : (k2inbeginscan env w rel nkeys norderbys).2.calls = w.calls ∧
      (k2inbeginscan env w rel nkeys norderbys).2.queries = w.queries := by
    simp [k2inbeginscan, CamWorld.Assert]
  obtain ⟨hw1, d1, hd1, hq1⟩ := k2inrescan_fresh env (k2inbeginscan env w rel nkeys norderbys).2
    (k2inbeginscan env w rel nkeys norderbys).1 a hopen
  refine ⟨?_, ?_, ?_⟩
  · intro w1 scan d b h
    rw [(k2inrescan_holding env w1 scan b d h).1]
  · rw [hw1]
    simp [hopenw]
  · obtain ⟨tr, d2, h1, -, -, h4, h5, h6, h7, h8⟩ := rescanAll_holding env rest
      (k2inrescan env (k2inbeginscan env w rel nkeys norderbys).2
        (k2inbeginscan env w rel nkeys norderbys).1
        a.scankey a.nscankeys a.orderbys a.norderbys) d1 hd1
    refine ⟨[ScanCall.camBeginScan (k2inbeginscan env w rel nkeys norderbys).1.heapRelation
        (k2inbeginscan env w rel nkeys norderbys).1.indexRelation
        (k2inbeginscan env w rel nkeys norderbys).1.xs_want_itup a.nscankeys a.scankey
        w.queries] ++ tr, d2, ?_, ?_, ?_, h6, ?_, ?_⟩
    · simp only [rescanAll, h1, hw1, hopenw, List.append_assoc]
    · simp [List.countP_cons, ScanCall.isBegin, h4]
    · simp [List.countP_cons, ScanCall.isEnd, h5]
    · cases rest with
      | nil =>
        simp [rescanAll, hd1] at h6
        simp [← h6, hq1, hopenw]
      | cons b rest2 =>
        have := h8 (by simp)
        rw [this, hw1]
        simp only [List.length_cons, hopenw]
        omega
    · simp only [List.singleton_append, liveQueries, List.nil_append]
      rw [hq1, hopenw.2] at h7
      exact h7

/-- C11, at a concrete input: a cursor on the secondary index that is bound
once and then bound again. -/
theorem rebinding_never_leaks_witness :
    exActiveScan.1.camScan = some exActiveDesc ∧
    (k2inrescan exCamEnv exActiveScan.2 exActiveScan.1 exRescanArgs.scankey exRescanArgs.nscankeys
        exRescanArgs.orderbys exRescanArgs.norderbys).2.calls =
      exActiveScan.2.calls ++ [ScanCall.camEndScan (some exActiveDesc),
        ScanCall.camBeginScan exActiveScan.1.heapRelation exActiveScan.1.indexRelation
          exActiveScan.1.xs_want_itup exRescanArgs.nscankeys exRescanArgs.scankey
          exActiveScan.2.queries] :=
  ⟨by decide,
    (rebinding_never_leaks exCamEnv exWorld exPlain 1 0 exRescanArgs []).1 exActiveScan.2
      exActiveScan.1 exActiveDesc exRescanArgs (by decide)⟩

/-! ## C12: the limit hint -/

/-- C12.  `k2ingettuple` on a cursor that holds a remote query hands that
query (the descriptor of its one fetch call, which the cursor keeps) these
execution parameters: for a backward scan with a non-default limit hint,
`limit_count = -1` whatever count was supplied, `limit_use_default` as
supplied; for a forward scan the supplied parameters unchanged; for a
backward scan with a default hint the supplied parameters unchanged. -/
theorem limit_hint_suppressed_backward (env : CamEnv) (w : CamWorld)
    (scan : IndexScanDescData) (d : CamScanDescData) (dir : ScanDirection)
    (h : scan.camScan = some d) :
    ∃ (r : GetTupleResult) (k2can : CamScanDescData),
      k2ingettuple env w scan dir = some r ∧
      r.scan.camScan = some k2can ∧
      r.world.calls = w.calls ++
        [if d.index_only_scan then
          ScanCall.cam_getnext_indextuple k2can (dir == ScanDirection.ForwardScanDirection)
         else ScanCall.cam_getnext_heaptuple k2can (dir == ScanDirection.ForwardScanDirection)] ∧
      (dir = ScanDirection.BackwardScanDirection →
        scan.k2pg_exec_params.limit_use_default = false →
        k2can.exec_params = { limit_count := -1, limit_use_default := false }) ∧
      (dir = ScanDirection.ForwardScanDirection →
        k2can.exec_params = scan.k2pg_exec_params) ∧
      (dir = ScanDirection.BackwardScanDirection →
        scan.k2pg_exec_params.limit_use_default = true →
        k2can.exec_params = scan.k2pg_exec_params) := by
  cases hio : d.index_only_scan <;> cases hdef : scan.k2pg_exec_params.limit_use_default <;>
    cases dir <;>
    simp [k2ingettuple, h, hio, hdef, CamWorld.Assert] <;>
    (split <;> simp_all)

/-- C12, at a concrete input: a backward fetch on a cursor whose supplied limit
hint is the non-default count 10. -/
theorem limit_hint_suppressed_backward_witness :
    exActiveScan.1.camScan = some exActiveDesc ∧
    exActiveScan.1.k2pg_exec_params = { limit_count := 10, limit_use_default := false } ∧
    ∃ (r : GetTupleResult) (k2can : CamScanDescData),
      k2ingettuple exCamEnv exActiveScan.2 exActiveScan.1
        ScanDirection.BackwardScanDirection = some r ∧
      r.scan.camScan = some k2can ∧
      k2can.exec_params = { limit_count := -1, limit_use_default := false } :=
  let ⟨r, k2can, h1, h2, _, h4, _, _⟩ :=
    limit_hint_suppressed_backward exCamEnv exActiveScan.2 exActiveScan.1 exActiveDesc
      ScanDirection.BackwardScanDirection (by decide)
  ⟨by decide, by decide, r, k2can, h1, h2, h4 rfl (by decide)⟩

/-! ## C13: index-only retrieval and base-row fetch -/

/-- C13.  `k2ingettuple` on a cursor that holds a remote query makes exactly
one call.  If the descriptor is set for an index-only scan, the call is
`cam_getnext_indextuple`, in the requested direction; a returned entry is
published as `xs_itup` (with the descriptor of the index relation) and its
identifier copied to `xs_ctup.t_k2pgctid`.  Otherwise the call is
`cam_getnext_heaptuple`, in the requested direction; a returned row is
published as `xs_hitup` and its identifier copied likewise.  In both cases
`xs_recheck` is the value the fetch left there. -/
theorem index_only_or_base_row_fetch (env : CamEnv) (w : CamWorld)
    (scan : IndexScanDescData) (d : CamScanDescData) (dir : ScanDirection)
    (h : scan.camScan = some d) :
    ∃ (r : GetTupleResult) (k2can : CamScanDescData),
      k2ingettuple env w scan dir = some r ∧
      r.scan.camScan = some k2can ∧
      (d.index_only_scan = true →
        r.world.calls = w.calls ++
          [ScanCall.cam_getnext_indextuple k2can (dir == ScanDirection.ForwardScanDirection)] ∧
        r.scan.xs_recheck =
          (env.cam_getnext_indextuple w.calls k2can (dir == ScanDirection.ForwardScanDirection)
            scan.xs_recheck).2 ∧
        r.scan.xs_hitup = scan.xs_hitup ∧
        ∀ tuple,
          (env.cam_getnext_indextuple w.calls k2can (dir == ScanDirection.ForwardScanDirection)
            scan.xs_recheck).1 = some tuple →
          r.scan.xs_itup = some tuple ∧
          r.scan.xs_itupdesc = some scan.indexRelation ∧
          r.scan.xs_ctup_t_k2pgctid = tuple.t_k2pgctid) ∧
      (d.index_only_scan = false →
        r.world.calls = w.calls ++
          [ScanCall.cam_getnext_heaptuple k2can (dir == ScanDirection.ForwardScanDirection)] ∧
        r.scan.xs_recheck =
          (env.cam_getnext_heaptuple w.calls k2can (dir == ScanDirection.ForwardScanDirection)
            scan.xs_recheck).2 ∧
        r.scan.xs_itup = scan.xs_itup ∧
        ∀ tuple,
          (env.cam_getnext_heaptuple w.calls k2can (dir == ScanDirection.ForwardScanDirection)
            scan.xs_recheck).1 = some tuple →
          r.scan.xs_hitup = some tuple ∧
          r.scan.xs_hitupdesc = scan.heapRelation ∧
          r.scan.xs_ctup_t_k2pgctid = tuple.t_k2pgctid) := by
  cases hio : d.index_only_scan <;> cases hdef : scan.k2pg_exec_params.limit_use_default <;>
    cases dir <;>
    simp [k2ingettuple, h, hio, hdef, CamWorld.Assert] <;>
    (split <;> simp_all)

/-- C13, at a concrete input: a forward fetch on a cursor set for an
index-only scan. -/
theorem index_only_or_base_row_fetch_witness :
    exActiveScan.1.camScan = some exActiveDesc ∧
    exActiveDesc.index_only_scan = true ∧
    ∃ (r : GetTupleResult) (k2can : CamScanDescData),
      k2ingettuple exCamEnv exActiveScan.2 exActiveScan.1
        ScanDirection.ForwardScanDirection = some r ∧
      r.world.calls = exActiveScan.2.calls ++ [ScanCall.cam_getnext_indextuple k2can true] ∧
      r.scan.xs_itup = some { t_k2pgctid := 4096, t_values := [some 5] } ∧
      r.scan.xs_ctup_t_k2pgctid = 4096 :=
  let ⟨r, k2can, h1, _, h3, _⟩ :=
    index_only_or_base_row_fetch exCamEnv exActiveScan.2 exActiveScan.1 exActiveDesc
      ScanDirection.ForwardScanDirection (by decide)
  ⟨by decide, rfl, r, k2can, h1, (h3 rfl).1, ((h3 rfl).2.2.2 _ rfl).1, ((h3 rfl).2.2.2 _ rfl).2.2⟩

/-- What one call of `k2ingettuple` does on a cursor that holds a remote query:
the fetch it calls, and what it publishes from the answer. -/
theorem k2ingettuple_fetch (env : CamEnv) (w : CamWorld)
    (scan : IndexScanDescData) (d : CamScanDescData) (dir : ScanDirection)
    (h : scan.camScan = some d) :
    ∃ (r : GetTupleResult) (k2can : CamScanDescData),
      k2ingettuple env w scan dir = some r ∧
      r.scan.camScan = some k2can ∧
      r.result = (r.scan.xs_ctup_t_k2pgctid != 0) ∧
      (d.index_only_scan = true →
        (∀ tuple,
          (env.cam_getnext_indextuple w.calls k2can (dir == ScanDirection.ForwardScanDirection)
            scan.xs_recheck).1 = some tuple →
          r.scan.xs_ctup_t_k2pgctid = tuple.t_k2pgctid) ∧
        ((env.cam_getnext_indextuple w.calls k2can (dir == ScanDirection.ForwardScanDirection)
            scan.xs_recheck).1 = none →
          r.scan.xs_ctup_t_k2pgctid = 0)) ∧
      (d.index_only_scan = false →
        (∀ tuple,
          (env.cam_getnext_heaptuple w.calls k2can (dir == ScanDirection.ForwardScanDirection)
            scan.xs_recheck).1 = some tuple →
          r.scan.xs_ctup_t_k2pgctid = tuple.t_k2pgctid) ∧
        ((env.cam_getnext_heaptuple w.calls k2can (dir == ScanDirection.ForwardScanDirection)
            scan.xs_recheck).1 = none →
          r.scan.xs_ctup_t_k2pgctid = 0)) := by
  cases hio : d.index_only_scan <;> cases hdef : scan.k2pg_exec_params.limit_use_default <;>
    cases dir <;>
    simp [k2ingettuple, h, hio, hdef, CamWorld.Assert] <;>
    (split <;> simp_all)

/-! ## C14: the end of the scan -/

/-- C14.  `k2ingettuple` on a cursor that holds a remote query, in either
direction.  Under the invariant of the data model that every row the remote
fetch returns carries a non-null logical record identifier, the function
returns false if and only if the remote fetch returned no tuple, and so
returns true for every tuple returned.  The reported identifier
`xs_ctup.t_k2pgctid` is reset at the start of the call: when the remote fetch
returns no tuple it is 0 whatever it was before the call, and the function
returns false.  The returned bool says whether that identifier is non-null
after the call, which for a returned tuple is the identifier of that tuple. -/
theorem no_match_iff_exhausted (env : CamEnv) (w : CamWorld)
    (scan : IndexScanDescData) (d : CamScanDescData) (dir : ScanDirection)
    (h : scan.camScan = some d) :
    ∃ (r : GetTupleResult) (k2can : CamScanDescData),
      k2ingettuple env w scan dir = some r ∧
      r.scan.camScan = some k2can ∧
      r.result = (r.scan.xs_ctup_t_k2pgctid != 0) ∧
      ((if d.index_only_scan then
          (env.cam_getnext_indextuple w.calls k2can (dir == ScanDirection.ForwardScanDirection)
            scan.xs_recheck).1.isNone
        else
          (env.cam_getnext_heaptuple w.calls k2can (dir == ScanDirection.ForwardScanDirection)
            scan.xs_recheck).1.isNone) = true →
        r.scan.xs_ctup_t_k2pgctid = 0 ∧ r.result = false) ∧
      ((∀ hist k f rc t, (env.cam_getnext_indextuple hist k f rc).1 = some t →
          t.t_k2pgctid ≠ 0) →
        (∀ hist k f rc t, (env.cam_getnext_heaptuple hist k f rc).1 = some t →
          t.t_k2pgctid ≠ 0) →
        (r.result = false ↔
          (if d.index_only_scan then
            (env.cam_getnext_indextuple w.calls k2can (dir == ScanDirection.ForwardScanDirection)
              scan.xs_recheck).1.isNone
          else
            (env.cam_getnext_heaptuple w.calls k2can (dir == ScanDirection.ForwardScanDirection)
              scan.xs_recheck).1.isNone) = true)) ∧
      (d.index_only_scan = true → ∀ t,
        (env.cam_getnext_indextuple w.calls k2can (dir == ScanDirection.ForwardScanDirection)
          scan.xs_recheck).1 = some t →
        r.result = (t.t_k2pgctid != 0)) ∧
      (d.index_only_scan = false → ∀ t,
        (env.cam_getnext_heaptuple w.calls k2can (dir == ScanDirection.ForwardScanDirection)
          scan.xs_recheck).1 = some t →
        r.result = (t.t_k2pgctid != 0)) := by
  obtain ⟨r, k2can, h1, h2, h3, hI, hH⟩ := k2ingettuple_fetch env w scan d dir h
  refine ⟨r, k2can, h1, h2, h3, ?_, ?_, ?_, ?_⟩
  rotate_left 2
  · intro hio t hf
    rw [h3, (hI hio).1 t hf]
  · intro hio t hf
    rw [h3, (hH hio).1 t hf]
  · cases hio : d.index_only_scan
    · simp only [Bool.false_eq_true, if_false, Option.isNone_iff_eq_none]
      intro hnone
      have := (hH hio).2 hnone
      simp [h3, this]
    · simp only [if_true, Option.isNone_iff_eq_none]
      intro hnone
      have := (hI hio).2 hnone
      simp [h3, this]
  · intro hinvI hinvH
    cases hio : d.index_only_scan
    · simp only [Bool.false_eq_true, if_false, Option.isNone_iff_eq_none]
      constructor
      · intro hres
        cases hf : (env.cam_getnext_heaptuple w.calls k2can
            (dir == ScanDirection.ForwardScanDirection) scan.xs_recheck).1 with
        | none => rfl
        | some t =>
          have h4 := (hH hio).1 t hf
          have h5 := hinvH _ _ _ _ t hf
          rw [h3, h4] at hres
          simp [h5] at hres
      · intro hnone
        have := (hH hio).2 hnone
        simp [h3, this]
    · simp only [if_true, Option.isNone_iff_eq_none]
      constructor
      · intro hres
        cases hf : (env.cam_getnext_indextuple w.calls k2can
            (dir == ScanDirection.ForwardScanDirection) scan.xs_recheck).1 with
        | none => rfl
        | some t =>
          have h4 := (hI hio).1 t hf
          have h5 := hinvI _ _ _ _ t hf
          rw [h3, h4] at hres
          simp [h5] at hres
      · intro hnone
        have := (hI hio).2 hnone
        simp [h3, this]

/-- C14, at a concrete input: a fetch that finds row 4096, and a fetch on the
exhausted query after a match. -/
theorem no_match_iff_exhausted_witness :
    exMatchedScan.camScan = some exActiveDesc ∧
    exMatchedScan.xs_ctup_t_k2pgctid = 4096 ∧
    (∃ (r : GetTupleResult),
      k2ingettuple exCamEnvExhausted exActiveScan.2 exMatchedScan
        ScanDirection.ForwardScanDirection = some r ∧
      r.scan.xs_ctup_t_k2pgctid = 0 ∧ r.result = false) ∧
    (∃ (r : GetTupleResult),
      k2ingettuple exCamEnv exActiveScan.2 exMatchedScan
        ScanDirection.BackwardScanDirection = some r ∧
      r.result ≠ false) :=
  by
  obtain ⟨r, _, h1, -, -, h4, -⟩ :=
    no_match_iff_exhausted exCamEnvExhausted exActiveScan.2 exMatchedScan exActiveDesc
      ScanDirection.ForwardScanDirection (by decide)
  obtain ⟨r2, _, g1, -, -, -, g5, -⟩ :=
    no_match_iff_exhausted exCamEnv exActiveScan.2 exMatchedScan exActiveDesc
      ScanDirection.BackwardScanDirection (by decide)
  refine ⟨by decide, by decide, ⟨r, h1, h4 rfl⟩, ⟨r2, g1, fun hres => ?_⟩⟩
  have hnone := (g5 (fun _ _ _ _ t ht => by cases ht; decide)
    (fun _ _ _ _ t ht => by cases ht; decide)).1 hres
  simp [exActiveDesc, exCamEnv] at hnone

/-! ## C15: closing a cursor -/

/-- What `k2inendscan` does.  On a cursor that holds a remote query it releases
that query exactly once (one `camEndScan` on it), its assertion holds, and the
scan descriptor is left as it is, so that a second `k2inendscan` calls
`camEndScan` on the same query again.  On a cursor that holds no remote query
`Assert(PointerIsValid(k2can))` fails and `camEndScan` is called with the null
pointer. -/
theorem close_releases_query_once (w : CamWorld) (scan : IndexScanDescData) :
    (∀ d, scan.camScan = some d →
      (k2inendscan w scan).2.calls = w.calls ++ [ScanCall.camEndScan (some d)] ∧
      (k2inendscan w scan).2.assertsHold = w.assertsHold ∧
      (k2inendscan w scan).2.queries = w.queries ∧
      (k2inendscan w scan).1 = scan ∧
      (k2inendscan (k2inendscan w scan).2 (k2inendscan w scan).1).2.calls =
        w.calls ++ [ScanCall.camEndScan (some d), ScanCall.camEndScan (some d)]) ∧
    (scan.camScan = none →
      (k2inendscan w scan).2.assertsHold = false ∧
      (k2inendscan w scan).2.calls = w.calls ++ [ScanCall.camEndScan none]) := by
  refine ⟨fun d h => ?_, fun h => ?_⟩
  · simp [k2inendscan, camEndScan, CamWorld.Assert, h]
  · simp [k2inendscan, camEndScan, CamWorld.Assert, h]

/-- C15, where the code departs from it.  The claim: close is idempotent; on a
cursor that is already closed, or opened and never bound, it releases
nothing, raises no error and violates no assertion.  The code: `k2inendscan`
on a cursor that was opened and never bound evaluates its own
`Assert(PointerIsValid(k2can))` to false and hands the null pointer to
`camEndScan`; on the bound cursor it leaves the reference to the released
query in place, and a second close releases the same query again. -/
theorem close_is_not_idempotent :
    exOpenedScan.1.camScan = none ∧
    exOpenedScan.2.assertsHold = true ∧
    (k2inendscan exOpenedScan.2 exOpenedScan.1).2.assertsHold = false ∧
    (k2inendscan exOpenedScan.2 exOpenedScan.1).2.calls = [ScanCall.camEndScan none] ∧
    (k2inendscan exActiveScan.2 exActiveScan.1).1.camScan = some exActiveDesc ∧
    (k2inendscan (k2inendscan exActiveScan.2 exActiveScan.1).2
        (k2inendscan exActiveScan.2 exActiveScan.1).1).2.calls =
      exActiveScan.2.calls ++
        [ScanCall.camEndScan (some exActiveDesc), ScanCall.camEndScan (some exActiveDesc)] := by
  refine ⟨?_, ?_, ?_, ?_, ?_, ?_⟩ <;> decide

/-! ## C16: index-only retrieval is offered by secondary indexes only -/

/-- C16.  `k2incanreturn` reports index-only retrieval as available if and only
if the index is not the primary index, and the answer is the same for every
attribute number. -/
theorem canreturn_iff_not_primary (index : RelationData) (attno attno2 : Int) :
    (k2incanreturn index attno = true ↔ index.rd_index.indisprimary = false) ∧
    (k2incanreturn index attno = false ↔ index.rd_index.indisprimary = true) ∧
    k2incanreturn index attno = k2incanreturn index attno2 := by
  cases h : index.rd_index.indisprimary <;> simp [k2incanreturn, h]

/-! ## C17: dropping an index that is gone -/

/-- C17 (as amended).  `K2PgDropIndex` absorbs a not-found status of either
step: when creating the drop statement reports not-found it returns without
error and without executing anything; when creation succeeds it executes the
statement, and returns without error when the execution succeeds or reports
not-found.  The execute step is issued exactly when creation succeeded, that
is when it reported neither not-found nor another failure.  An error is raised
only for a failure of the remote store other than not-found; such a failure
of the creation is raised before anything is executed.
Against a remote store that answers not-found for an index it no longer
holds, dropping an index and dropping it a second time both return without
error, and the second drop executes nothing. -/
theorem drop_index_absorbs_not_found (gate : PgGate) (db relationId : Oid)
    (indexes : List Oid) :
    ((gate.PgGate_NewDropIndex db relationId false).1 = K2PgStatus.NotFound →
      K2PgDropIndex gate db relationId =
        ([GateCall.PgGate_NewDropIndex db relationId false], .ok ())) ∧
    ((gate.PgGate_NewDropIndex db relationId false).1 = K2PgStatus.OK →
      gate.PgGate_ExecDropIndex (gate.PgGate_NewDropIndex db relationId false).2 ≠
        K2PgStatus.Failure →
      K2PgDropIndex gate db relationId =
        ([GateCall.PgGate_NewDropIndex db relationId false,
          GateCall.PgGate_ExecDropIndex (gate.PgGate_NewDropIndex db relationId false).2],
         .ok ())) ∧
    ((∃ handle, GateCall.PgGate_ExecDropIndex handle ∈ (K2PgDropIndex gate db relationId).1) ↔
      (gate.PgGate_NewDropIndex db relationId false).1 = K2PgStatus.OK) ∧
    ((gate.PgGate_NewDropIndex db relationId false).1 ≠ K2PgStatus.Failure →
      ((∃ handle, GateCall.PgGate_ExecDropIndex handle ∈ (K2PgDropIndex gate db relationId).1) ↔
        (gate.PgGate_NewDropIndex db relationId false).1 ≠ K2PgStatus.NotFound)) ∧
    (∀ e, (K2PgDropIndex gate db relationId).2 = .error e →
      e = K2PgStatus.Failure ∧
      ((gate.PgGate_NewDropIndex db relationId false).1 = K2PgStatus.Failure ∨
       gate.PgGate_ExecDropIndex (gate.PgGate_NewDropIndex db relationId false).2 =
        K2PgStatus.Failure)) ∧
    (K2PgDropIndex (remoteGate indexes) db relationId).2 = .ok () ∧
    K2PgDropIndex
        (remoteGate (remoteIndexesAfter indexes (K2PgDropIndex (remoteGate indexes) db relationId).1))
        db relationId =
      ([GateCall.PgGate_NewDropIndex db relationId false], .ok ()) ∧
    ((gate.PgGate_NewDropIndex db relationId false).1 = K2PgStatus.Failure →
      K2PgDropIndex gate db relationId =
        ([GateCall.PgGate_NewDropIndex db relationId false], .error K2PgStatus.Failure)) := by
  refine ⟨?_, ?_, ?_, ?_, ?_, ?_, ?_, ?_⟩
  rotate_left 7
  · intro h
    simp [K2PgDropIndex, HandleK2PgStatusIgnoreNotFound, h]
  · intro h
    simp [K2PgDropIndex, HandleK2PgStatusIgnoreNotFound, h]
  · intro h h2
    cases h3 : gate.PgGate_ExecDropIndex (gate.PgGate_NewDropIndex db relationId false).2 <;>
      simp_all [K2PgDropIndex, HandleK2PgStatusIgnoreNotFound]
  · cases h : (gate.PgGate_NewDropIndex db relationId false).1 <;>
      cases h3 : gate.PgGate_ExecDropIndex (gate.PgGate_NewDropIndex db relationId false).2 <;>
      simp [K2PgDropIndex, HandleK2PgStatusIgnoreNotFound, h, h3]
  · intro hne
    cases h : (gate.PgGate_NewDropIndex db relationId false).1 <;>
      cases h3 : gate.PgGate_ExecDropIndex (gate.PgGate_NewDropIndex db relationId false).2 <;>
      simp_all [K2PgDropIndex, HandleK2PgStatusIgnoreNotFound]
  · intro e
    cases h : (gate.PgGate_NewDropIndex db relationId false).1 <;>
      cases h3 : gate.PgGate_ExecDropIndex (gate.PgGate_NewDropIndex db relationId false).2 <;>
      simp [K2PgDropIndex, HandleK2PgStatusIgnoreNotFound, h, h3] <;>
      (intro he; exact he.symm)
  · by_cases hmem : relationId ∈ indexes <;>
      simp [K2PgDropIndex, HandleK2PgStatusIgnoreNotFound, remoteGate, hmem]
  · by_cases hmem : relationId ∈ indexes <;>
      simp [K2PgDropIndex, HandleK2PgStatusIgnoreNotFound, remoteGate, remoteIndexesAfter, hmem]

/-- C17, at a concrete input: dropping index 3455 from a remote store that only
holds index 2663, and from one that holds both. -/
theorem drop_index_absorbs_not_found_witness :
    ((remoteGate [2663]).PgGate_NewDropIndex 1 3455 false).1 = K2PgStatus.NotFound ∧
    K2PgDropIndex (remoteGate [2663]) 1 3455 =
      ([GateCall.PgGate_NewDropIndex 1 3455 false], .ok ()) ∧
    ((remoteGate [2663, 3455]).PgGate_NewDropIndex 1 3455 false).1 = K2PgStatus.OK ∧
    K2PgDropIndex (remoteGate [2663, 3455]) 1 3455 =
      ([GateCall.PgGate_NewDropIndex 1 3455 false, GateCall.PgGate_ExecDropIndex 3455], .ok ()) :=
  ⟨by decide,
    (drop_index_absorbs_not_found (remoteGate [2663]) 1 3455 []).1 (by decide),
    by decide,
    (drop_index_absorbs_not_found (remoteGate [2663, 3455]) 1 3455 []).2.1 (by decide)
      (by decide)⟩

/-- C17 as stated fails: when creating the drop statement fails with an error
other than not-found, creation did not report not-found and yet the execute
step is not issued; the failure is raised. -/
theorem drop_index_creation_failure_skips_execute :
    (exFailingGate.PgGate_NewDropIndex 1 3455 false).1 ≠ K2PgStatus.NotFound ∧
    (K2PgDropIndex exFailingGate 1 3455).1 = [GateCall.PgGate_NewDropIndex 1 3455 false] ∧
    (∀ handle, GateCall.PgGate_ExecDropIndex handle ∉ (K2PgDropIndex exFailingGate 1 3455).1) ∧
    (K2PgDropIndex exFailingGate 1 3455).2 = .error K2PgStatus.Failure := by
  refine ⟨by decide, by decide, ?_, rfl⟩
  intro handle hmem
  have hcalls : (K2PgDropIndex exFailingGate 1 3455).1 =
      [GateCall.PgGate_NewDropIndex 1 3455 false] := by decide
  rw [hcalls] at hmem
  simp at hmem

/-! ## C18: deletion follows the rules of insertion -/

/-- C18.  For every index of the set and every row, the loop iteration of
`CatalogIndexDelete` issues one delete exactly when the rule of the spec
(`specMaintained`: not a primary index in remote-backed mode, and ready for
inserts) holds, and so does the loop iteration of `CatalogIndexInsert` with
its insert; the two loops make their calls for the same indexes in the same
order.  For a remote-backed index the delete is the one
`K2PgDeleteIndexRowsByBaseK2Pgctid` with the logical record identifier of the
row, otherwise the by-value `index_delete`.  `k2indelete` issues its remote
delete exactly when `k2ininsert` issues its remote insert, that is for a
non-primary index. -/
theorem delete_follows_insert_rules (env : K2PgEnv) (heap : RelationData)
    (tup : HeapTupleData) (ix : RelationData × IndexInfo)
    (ixs : List (RelationData × IndexInfo)) (values : List Datum) (isnull : List Bool)
    (k2pgctid : TupleRef) (checkUnique : IndexUniqueCheck) :
    CatalogIndexDelete_iter env tup ix =
      (if specMaintained env ix then
        [if env.IsK2PgRelation ix.1 then
          Call.K2PgDeleteIndexRowsByBaseK2Pgctid ix.1 (TupleRef.k2pgctid tup.t_k2pgctid)
         else
          Call.index_delete ix.1 (env.FormIndexDatum ix.2 tup).1 (env.FormIndexDatum ix.2 tup).2
            (TupleRef.t_self tup.t_self)]
       else []) ∧
    (CatalogIndexInsert_iter env heap tup ix).length =
      (if specMaintained env ix then 1 else 0) ∧
    (CatalogIndexDelete_iter env tup ix).map Call.target =
      (CatalogIndexInsert_iter env heap tup ix).map Call.target ∧
    (CatalogIndexDelete env ⟨heap, ixs⟩ tup).map Call.target =
      ((ixs.filter (specMaintained env)).map (fun i => some i.1)) ∧
    (CatalogIndexInsert_loop env heap tup ixs).map Call.target =
      ((ixs.filter (specMaintained env)).map (fun i => some i.1)) ∧
    k2indelete ix.1 values isnull k2pgctid =
      (if ix.1.rd_index.indisprimary then []
       else [Call.K2PgExecuteDeleteIndex ix.1 values isnull k2pgctid]) ∧
    (k2ininsert ix.1 values isnull k2pgctid heap checkUnique).1 =
      (if ix.1.rd_index.indisprimary then []
       else [Call.K2PgExecuteInsertIndex ix.1 values isnull k2pgctid]) := by
  have hiter : ∀ i : RelationData × IndexInfo,
      (CatalogIndexDelete_iter env tup i).map Call.target =
        (if specMaintained env i then [some i.1] else []) ∧
      (CatalogIndexInsert_iter env heap tup i).map Call.target =
        (if specMaintained env i then [some i.1] else []) := by
    intro i
    cases hk : env.IsK2PgEnabled <;> cases hp : i.1.rd_index.indisprimary <;>
      cases hr : i.2.ii_ReadyForInserts <;> cases hrel : env.IsK2PgRelation i.1 <;>
      simp [CatalogIndexDelete_iter, CatalogIndexInsert_iter, specMaintained, Call.target,
        hk, hp, hr, hrel]
  refine ⟨?_, ?_, ?_, ?_, ?_, ?_, ?_⟩
  · cases hk : env.IsK2PgEnabled <;> cases hp : ix.1.rd_index.indisprimary <;>
      cases hr : ix.2.ii_ReadyForInserts <;> cases hrel : env.IsK2PgRelation ix.1 <;>
      simp [CatalogIndexDelete_iter, specMaintained, hk, hp, hr, hrel]
  · cases hk : env.IsK2PgEnabled <;> cases hp : ix.1.rd_index.indisprimary <;>
      cases hr : ix.2.ii_ReadyForInserts <;>
      simp [CatalogIndexInsert_iter, specMaintained, hk, hp, hr]
  · rw [(hiter ix).1, (hiter ix).2]
  · rw [CatalogIndexDelete_eq_loop]
    simp only
    induction ixs with
    | nil => simp [CatalogIndexDelete_loop]
    | cons i rest ih =>
      simp only [CatalogIndexDelete_loop, List.map_append, ih, (hiter i).1, List.filter_cons]
      cases specMaintained env i <;> simp
  · induction ixs with
    | nil => simp [CatalogIndexInsert_loop]
    | cons i rest ih =>
      simp only [CatalogIndexInsert_loop, List.map_append, ih, (hiter i).2, List.filter_cons]
      cases specMaintained env i <;> simp
  · cases hp : ix.1.rd_index.indisprimary <;> simp [k2indelete, hp]
  · cases hp : ix.1.rd_index.indisprimary <;> simp [k2ininsert, hp]

/-! ## C20: sort flags of a key column -/

/-- C20.  `ColumnSortingOptions` gives, for every sort direction and nulls
option: `is_desc` is true exactly when the direction is `SORTBY_DESC`; for a
descending column `is_nulls_first` is true unless the option is
`SORTBY_NULLS_LAST`; for any other direction `is_nulls_first` is true only
when the option is `SORTBY_NULLS_FIRST`.  So the default nulls option means
nulls first for descending and nulls last for ascending or default order. -/
theorem column_sorting_options (dir : SortByDir) (nulls : SortByNulls) :
    ((ColumnSortingOptions dir nulls).1 = true ↔ dir = SortByDir.SORTBY_DESC) ∧
    (dir = SortByDir.SORTBY_DESC →
      ((ColumnSortingOptions dir nulls).2 = true ↔ nulls ≠ SortByNulls.SORTBY_NULLS_LAST)) ∧
    (dir ≠ SortByDir.SORTBY_DESC →
      ((ColumnSortingOptions dir nulls).2 = true ↔ nulls = SortByNulls.SORTBY_NULLS_FIRST)) ∧
    ColumnSortingOptions SortByDir.SORTBY_DESC SortByNulls.SORTBY_NULLS_DEFAULT = (true, true) ∧
    ColumnSortingOptions SortByDir.SORTBY_ASC SortByNulls.SORTBY_NULLS_DEFAULT = (false, false) ∧
    ColumnSortingOptions SortByDir.SORTBY_DEFAULT SortByNulls.SORTBY_NULLS_DEFAULT =
      (false, false) := by
  refine ⟨?_, ?_, ?_, by decide, by decide, by decide⟩
  · cases dir <;> cases nulls <;> decide
  · intro h
    subst h
    cases nulls <;> decide
  · intro h
    cases dir <;> cases nulls <;> first | exact absurd rfl h | decide

/-- C20, at concrete inputs: a descending column with the default nulls
option, and an ascending column with it. -/
theorem column_sorting_options_witness :
    ((ColumnSortingOptions SortByDir.SORTBY_DESC SortByNulls.SORTBY_NULLS_DEFAULT).2 = true ↔
      SortByNulls.SORTBY_NULLS_DEFAULT ≠ SortByNulls.SORTBY_NULLS_LAST) ∧
    ((ColumnSortingOptions SortByDir.SORTBY_ASC SortByNulls.SORTBY_NULLS_DEFAULT).2 = true ↔
      SortByNulls.SORTBY_NULLS_DEFAULT = SortByNulls.SORTBY_NULLS_FIRST) :=
  ⟨(column_sorting_options SortByDir.SORTBY_DESC SortByNulls.SORTBY_NULLS_DEFAULT).2.1 rfl,
    (column_sorting_options SortByDir.SORTBY_ASC SortByNulls.SORTBY_NULLS_DEFAULT).2.2.1
      (by decide)⟩

/-! ## C19: the columns of a new table -/

/-- The search for a key column finds the first attribute of that name. -/
theorem CreateTableAddColumns_find_eq (allow : Oid → Int → Bool → Bool) (e : IndexElem)
    (cols : List K2PGColumnDef) (atts : List FormData_pg_attribute) :
    CreateTableAddColumns_find allow e cols atts =
      (atts.find? (fun a => a.attname == e.name)).map (fun a =>
        if allow a.atttypid a.attlen a.attbyval then .ok (cols ++ [keyColumn a e])
        else .error (ErrorReport.ERROR_FEATURE_NOT_SUPPORTED a.atttypid)) := by
  induction atts with
  | nil => simp [CreateTableAddColumns_find]
  | cons a rest ih =>
    simp only [CreateTableAddColumns_find, List.find?_cons]
    cases hname : (a.attname == e.name)
    · simp [ih]
    · cases hallow : allow a.atttypid a.attlen a.attbyval <;>
        simp [hallow, CreateTableAddColumn, keyColumn]

/-- When every key column is found and of an allowed type, the first pass adds
one key column per key element, in the declared order. -/
theorem CreateTableAddColumns_keys_ok (allow : Oid → Int → Bool → Bool) (desc : TupleDescData)
    (params : List IndexElem) :
    ∀ cols : List K2PGColumnDef,
      (∀ e ∈ params, ∃ a, desc.attrs.find? (fun a => a.attname == e.name) = some a ∧
        allow a.atttypid a.attlen a.attbyval = true) →
      CreateTableAddColumns_keys allow desc params cols =
        .ok (cols ++ params.filterMap (fun e =>
          (desc.attrs.find? (fun a => a.attname == e.name)).map (fun a => keyColumn a e))) := by
  induction params with
  | nil => intro cols _; simp [CreateTableAddColumns_keys]
  | cons e rest ih =>
    intro cols h
    obtain ⟨a, hfind, hallow⟩ := h e (List.mem_cons_self _ _)
    simp only [CreateTableAddColumns_keys, CreateTableAddColumns_find_eq, hfind, Option.map_some',
      hallow, if_true, List.filterMap_cons]
    rw [ih _ (fun e2 he2 => h e2 (List.mem_cons_of_mem _ he2))]
    simp

/-- A key column whose name no attribute has makes the first pass report an error. -/
theorem CreateTableAddColumns_keys_absent (allow : Oid → Int → Bool → Bool)
    (desc : TupleDescData) (params : List IndexElem)
    (h : ∃ e ∈ params, ∀ a ∈ desc.attrs, a.attname ≠ e.name) :
    ∀ cols : List K2PGColumnDef,
      ∃ err, CreateTableAddColumns_keys allow desc params cols = .error err := by
  induction params with
  | nil => obtain ⟨e, he, -⟩ := h; simp at he
  | cons e rest ih =>
    intro cols
    simp only [CreateTableAddColumns_keys, CreateTableAddColumns_find_eq]
    cases hfind : desc.attrs.find? (fun a => a.attname == e.name) with
    | none => exact ⟨_, rfl⟩
    | some a =>
      cases hallow : allow a.atttypid a.attlen a.attbyval
      · simp [hallow]
      · simp only [Option.map_some', hallow, if_true]
        apply ih
        obtain ⟨e2, he2, habs⟩ := h
        rcases List.mem_cons.1 he2 with rfl | hrest
        · exfalso
          have hp := List.find?_some hfind
          have hm := List.mem_of_find?_eq_some hfind
          exact habs a hm (by simpa using hp)
        · exact ⟨e2, hrest, habs⟩

theorem CreateTableAddColumns_is_key_eq (att : FormData_pg_attribute) (params : List IndexElem) :
    CreateTableAddColumns_is_key att params = params.any (fun e => att.attname == e.name) := by
  induction params with
  | nil => simp [CreateTableAddColumns_is_key]
  | cons e rest ih =>
    cases hname : (att.attname == e.name) <;>
      simp [CreateTableAddColumns_is_key, hname, ih]

/-- The second pass adds the attributes that are no key column, in attribute
order, ascending and nulls last. -/
theorem CreateTableAddColumns_rest_eq (primary_key : Option Constraint)
    (atts : List FormData_pg_attribute) :
    ∀ cols : List K2PGColumnDef,
      CreateTableAddColumns_rest primary_key atts cols =
        cols ++ (atts.filter (fun a =>
          !(match primary_key with
            | some pk => pk.k2pg_index_params.any (fun e => a.attname == e.name)
            | none => false))).map plainColumn := by
  induction atts with
  | nil => intro cols; simp [CreateTableAddColumns_rest]
  | cons a rest ih =>
    intro cols
    simp only [CreateTableAddColumns_rest, ih, CreateTableAddColumns_is_key_eq, List.filter_cons]
    cases primary_key with
    | none => simp [CreateTableAddColumn, plainColumn]
    | some pk =>
      cases hk : pk.k2pg_index_params.any (fun e => a.attname == e.name) <;>
        simp [hk, CreateTableAddColumn, plainColumn]

theorem attribute_keyColumn (a : FormData_pg_attribute) (e : IndexElem) :
    (keyColumn a e).attribute = a := by
  cases a; rfl

theorem attribute_plainColumn (a : FormData_pg_attribute) :
    (plainColumn a).attribute = a := by
  cases a; rfl

/-- With distinct attribute names, a key element that names an attribute of
the table is found at that attribute. -/
theorem find_key_attribute (atts : List FormData_pg_attribute)
    (hnames : (atts.map (fun a => a.attname)).Nodup) (name : String)
    (a : FormData_pg_attribute) (ha : a ∈ atts) (hname : a.attname = name) :
    atts.find? (fun b => b.attname == name) = some a := by
  cases hf : atts.find? (fun b => b.attname == name) with
  | none =>
    have := List.find?_eq_none.1 hf a ha
    simp [hname] at this
  | some b =>
    have hb := List.mem_of_find?_eq_some hf
    have hbn : b.attname = name := by simpa using List.find?_some hf
    have : b = a := List.inj_on_of_nodup_map hnames hb ha (hbn.trans hname.symm)
    rw [this]

/-- The attributes found for the key elements are the attributes that are key
columns, each once. -/
theorem key_attributes_perm (atts : List FormData_pg_attribute) (params : List IndexElem)
    (hnames : (atts.map (fun a => a.attname)).Nodup)
    (hkeys : (params.map (fun e => e.name)).Nodup)
    (hpresent : ∀ e ∈ params, ∃ a ∈ atts, a.attname = e.name) :
    (params.filterMap (fun e => atts.find? (fun a => a.attname == e.name))).Perm
      (atts.filter (fun a => params.any (fun e => a.attname == e.name))) := by
  have hnodupK : (params.filterMap
      (fun e => atts.find? (fun a => a.attname == e.name))).Nodup := by
    have hmap : (params.filterMap (fun e => atts.find? (fun a => a.attname == e.name))).map
        (fun a => a.attname) = params.map (fun e => e.name) := by
      clear hkeys
      induction params with
      | nil => simp
      | cons e rest ih =>
        obtain ⟨a, ha, hname⟩ := hpresent e (List.mem_cons_self _ _)
        have hf := find_key_attribute atts hnames e.name a ha hname
        simp only [List.filterMap_cons, hf, List.map_cons, hname]
        rw [ih (fun e2 he2 => hpresent e2 (List.mem_cons_of_mem _ he2))]
    apply List.Nodup.of_map (fun a => a.attname)
    rw [hmap]
    exact hkeys
  have hnodupF : (atts.filter (fun a => params.any (fun e => a.attname == e.name))).Nodup :=
    List.Nodup.filter _ (List.Nodup.of_map _ hnames)
  rw [List.perm_ext_iff_of_nodup hnodupK hnodupF]
  intro a
  simp only [List.mem_filterMap, List.mem_filter, List.any_eq_true, beq_iff_eq]
  constructor
  · rintro ⟨e, he, hf⟩
    exact ⟨List.mem_of_find?_eq_some hf, e, he, by simpa using List.find?_some hf⟩
  · rintro ⟨ha, e, he, hname⟩
    exact ⟨e, he, find_key_attribute atts hnames e.name a ha hname⟩

/-- C19.  With no primary key, `CreateTableAddColumns` builds one column per
attribute, in attribute order, none marked key, all ascending and nulls last.
With a primary key, when the attribute names of the table are pairwise
distinct, the key column names are pairwise distinct and each names an
attribute of the table of an allowed key type, the column list is: first one
key column per key element in the declared order, made from the attribute of
that name, marked `is_key`, with the sort flags of `ColumnSortingOptions`;
then every attribute that is no key column, in attribute order, not key,
ascending, nulls last; and the attributes of the columns are a permutation of
the attributes of the table.  A key column name that no attribute of the table
has makes the function report an error. -/
theorem create_table_columns (allow : Oid → Int → Bool → Bool) (desc : TupleDescData)
    (pk : Constraint) :
    CreateTableAddColumns allow desc none [] = .ok (desc.attrs.map plainColumn) ∧
    ((desc.attrs.map (fun a => a.attname)).Nodup →
      (pk.k2pg_index_params.map (fun e => e.name)).Nodup →
      (∀ e ∈ pk.k2pg_index_params, ∃ a ∈ desc.attrs, a.attname = e.name ∧
        allow a.atttypid a.attlen a.attbyval = true) →
      ∃ keyCols : List K2PGColumnDef,
        CreateTableAddColumns allow desc (some pk) [] =
          .ok (keyCols ++
            (desc.attrs.filter
              (fun a => !pk.k2pg_index_params.any (fun e => a.attname == e.name))).map
              plainColumn) ∧
        List.Forall₂ (fun c e => ∃ a ∈ desc.attrs, a.attname = e.name ∧ c = keyColumn a e)
          keyCols pk.k2pg_index_params ∧
        ((keyCols ++
            (desc.attrs.filter
              (fun a => !pk.k2pg_index_params.any (fun e => a.attname == e.name))).map
              plainColumn).map K2PGColumnDef.attribute).Perm desc.attrs) ∧
    ((∃ e ∈ pk.k2pg_index_params, ∀ a ∈ desc.attrs, a.attname ≠ e.name) →
      ∃ err, CreateTableAddColumns allow desc (some pk) [] = .error err) := by
  refine ⟨?_, ?_, ?_⟩
  · simp [CreateTableAddColumns, CreateTableAddColumns_rest_eq]
  · intro hnames hkeys hpresent
    have hfound : ∀ e ∈ pk.k2pg_index_params,
        ∃ a, desc.attrs.find? (fun a => a.attname == e.name) = some a ∧
          allow a.atttypid a.attlen a.attbyval = true := by
      intro e he
      obtain ⟨a, ha, hname, hallow⟩ := hpresent e he
      exact ⟨a, find_key_attribute desc.attrs hnames e.name a ha hname, hallow⟩
    refine ⟨pk.k2pg_index_params.filterMap (fun e =>
        (desc.attrs.find? (fun a => a.attname == e.name)).map (fun a => keyColumn a e)),
      ?_, ?_, ?_⟩
    · simp [CreateTableAddColumns, CreateTableAddColumns_keys_ok allow desc _ [] hfound,
        CreateTableAddColumns_rest_eq]
    · generalize pk.k2pg_index_params = params at hpresent
      clear hfound hkeys
      induction params with
      | nil => simp
      | cons e rest ih =>
        obtain ⟨a, ha, hname, -⟩ := hpresent e (List.mem_cons_self _ _)
        have hf := find_key_attribute desc.attrs hnames e.name a ha hname
        simp only [List.filterMap_cons, hf, Option.map_some']
        exact List.Forall₂.cons ⟨a, ha, hname, rfl⟩
          (ih (fun e2 he2 => hpresent e2 (List.mem_cons_of_mem _ he2)))
    · have hkeyatts : (pk.k2pg_index_params.filterMap (fun e =>
          (desc.attrs.find? (fun a => a.attname == e.name)).map (fun a => keyColumn a e))).map
          K2PGColumnDef.attribute =
          pk.k2pg_index_params.filterMap
            (fun e => desc.attrs.find? (fun a => a.attname == e.name)) := by
        rw [List.map_filterMap]
        congr 1
        funext e
        cases desc.attrs.find? (fun a => a.attname == e.name) <;> simp [attribute_keyColumn]
      have hplain : ((desc.attrs.filter
          (fun a => !pk.k2pg_index_params.any (fun e => a.attname == e.name))).map
          plainColumn).map K2PGColumnDef.attribute =
          desc.attrs.filter
            (fun a => !pk.k2pg_index_params.any (fun e => a.attname == e.name)) := by
        rw [List.map_map]
        conv_rhs => rw [← List.map_id (desc.attrs.filter _)]
        apply List.map_congr_left
        intro a _
        simp [attribute_plainColumn]
      rw [List.map_append, hkeyatts, hplain]
      exact (List.Perm.append_right _
        (key_attributes_perm desc.attrs pk.k2pg_index_params hnames hkeys
          (fun e he => by
            obtain ⟨a, ha, hname, -⟩ := hpresent e he
            exact ⟨a, ha, hname⟩))).trans
        (List.filter_append_perm _ _)
  · intro habsent
    obtain ⟨err, herr⟩ :=
      CreateTableAddColumns_keys_absent allow desc pk.k2pg_index_params habsent []
    exact ⟨err, by simp [CreateTableAddColumns, herr]⟩

/-- C19, at a concrete input: the table (id, name, score) with
PRIMARY KEY (score DESC, id), and with a primary key that names a column the
table does not have. -/
theorem create_table_columns_witness :
    (exDesc.attrs.map (fun a => a.attname)).Nodup ∧
    (exPrimaryKey.k2pg_index_params.map (fun e => e.name)).Nodup ∧
    CreateTableAddColumns exAllowAll exDesc (some exPrimaryKey) [] =
      .ok [{ attr_name := "score", attr_num := 3, type_oid := 23, attr_size := 4,
             attr_byvalue := true, is_key := true, is_desc := true, is_nulls_first := true },
           { attr_name := "id", attr_num := 1, type_oid := 23, attr_size := 4,
             attr_byvalue := true, is_key := true, is_desc := false, is_nulls_first := false },
           { attr_name := "name", attr_num := 2, type_oid := 25, attr_size := -1,
             attr_byvalue := false, is_key := false, is_desc := false,
             is_nulls_first := false }] ∧
    (∃ keyCols : List K2PGColumnDef,
      CreateTableAddColumns exAllowAll exDesc (some exPrimaryKey) [] =
        .ok (keyCols ++
          (exDesc.attrs.filter
            (fun a => !exPrimaryKey.k2pg_index_params.any (fun e => a.attname == e.name))).map
            plainColumn) ∧
      ((keyCols ++
          (exDesc.attrs.filter
            (fun a => !exPrimaryKey.k2pg_index_params.any (fun e => a.attname == e.name))).map
            plainColumn).map K2PGColumnDef.attribute).Perm exDesc.attrs) ∧
    (∃ err, CreateTableAddColumns exAllowAll exDesc (some exPrimaryKeyMissing) [] =
      .error err) := by
  have hn1 : (exDesc.attrs.map (fun a => a.attname)).Nodup := by decide
  have hn2 : (exPrimaryKey.k2pg_index_params.map (fun e => e.name)).Nodup := by decide
  have hpresent : ∀ e ∈ exPrimaryKey.k2pg_index_params, ∃ a ∈ exDesc.attrs,
      a.attname = e.name ∧ exAllowAll a.atttypid a.attlen a.attbyval = true := by decide
  have habsent : ∃ e ∈ exPrimaryKeyMissing.k2pg_index_params,
      ∀ a ∈ exDesc.attrs, a.attname ≠ e.name := by decide
  obtain ⟨keyCols, h1, -, h3⟩ :=
    (create_table_columns exAllowAll exDesc exPrimaryKey).2.1 hn1 hn2 hpresent
  exact ⟨hn1, hn2, rfl, ⟨keyCols, h1, h3⟩,
    (create_table_columns exAllowAll exDesc exPrimaryKeyMissing).2.2 habsent⟩

end K2Index
